import Mathlib

/-!
Shallow embedding of the authoritative simulation core of the claudefront
territorial-conquest game (backend/src/game: state.rs, combat.rs, ai.rs and
backend/src/types/entities.rs).

Modelling conventions:
* `f32` values are modelled exactly, as unnormalised non-negative fractions
  (`Frac`, a numerator/denominator pair of naturals).  Every float literal in
  the source is a short decimal, every float expression a product, sum or
  quotient of such values, so exact rational arithmetic matches the intent of
  the source formulas; `as u32` casts of non-negative floats truncate toward
  zero, i.e. take the floor (`Frac.floorNat`).
* `u32`/`u64` quantities are modelled as `ℕ`.  The source never exercises
  wrap-around on the quantities the claims are about; `saturating_sub`
  corresponds exactly to natural subtraction.
* `Uuid` identifiers are modelled as `ℕ`.
* The engine's construction-time `HashMap` identifier→index tables are
  modelled by `List.findIdx?` on the current entity lists: identifiers are
  assigned at generation and never mutated, entities are never inserted or
  removed, so the index of an entity is stable for the process lifetime and
  the table lookup coincides with "first index holding this identifier".
* Rust `Result` is `Except String`; operations taking `&mut self` and
  returning `Result` are modelled as returning the (possibly partially
  mutated) engine together with the `Except` value, so that mutations already
  performed before an early `?` return are visible, exactly as through
  `&mut self`.
-/

/-- Exact model of a non-negative `f32` value: an unnormalised fraction
`num / den` of naturals.  All float values appearing in the game core are
non-negative. -/
structure Frac where
  num : ℕ
  den : ℕ
deriving DecidableEq, Repr, Inhabited

/-- Embed a natural number (`as f32` on a `u32`). -/
def Frac.ofNat (n : ℕ) : Frac := ⟨n, 1⟩

instance : Mul Frac := ⟨fun a b => ⟨a.num * b.num, a.den * b.den⟩⟩

instance : Add Frac := ⟨fun a b => ⟨a.num * b.den + b.num * a.den, a.den * b.den⟩⟩

instance : Div Frac := ⟨fun a b => ⟨a.num * b.den, a.den * b.num⟩⟩

/-- Value-level order on fractions (cross multiplication). -/
instance : LE Frac := ⟨fun a b => a.num * b.den ≤ b.num * a.den⟩

instance : LT Frac := ⟨fun a b => a.num * b.den < b.num * a.den⟩

instance : DecidableRel (fun a b : Frac => a ≤ b) := fun a b =>
  inferInstanceAs (Decidable (a.num * b.den ≤ b.num * a.den))

instance : DecidableRel (fun a b : Frac => a < b) := fun a b =>
  inferInstanceAs (Decidable (a.num * b.den < b.num * a.den))

/-- Truncation of a non-negative float to `u32` (`as u32`): the floor. -/
def Frac.floorNat (a : Frac) : ℕ := a.num / a.den

/-- Rust `f32::clamp(lo, hi)`: `lo` if below `lo`, `hi` if above `hi`,
otherwise the value itself. -/
def Frac.clamp (x lo hi : Frac) : Frac :=
  if x < lo then lo else if hi < x then hi else x

/-- Terrain type affecting territory bonuses (entities.rs). -/
inductive TerrainType
  | Plains
  | Mountains
  | Forests
  | Water
deriving DecidableEq, Repr, Inhabited

/-- Plains grant +20% gold generation. -/
def TerrainType.gold_multiplier : TerrainType → Frac
  | .Plains => ⟨12, 10⟩
  | _ => ⟨1, 1⟩

/-- Mountains reduce defender losses by 30%. -/
def TerrainType.defense_multiplier : TerrainType → Frac
  | .Mountains => ⟨7, 10⟩
  | _ => ⟨1, 1⟩

/-- Forests grant +20% population growth. -/
def TerrainType.population_growth_multiplier : TerrainType → Frac
  | .Forests => ⟨12, 10⟩
  | _ => ⟨1, 1⟩

/-- Building types constructible in territories (entities.rs). -/
inductive BuildingType
  | City
  | DefensePost
  | GoldMine
deriving DecidableEq, Repr, Inhabited

/-- Gold cost of a building. -/
def BuildingType.cost : BuildingType → ℕ
  | .City => 1000
  | .DefensePost => 500
  | .GoldMine => 750

/-- City grants +25,000 max population. -/
def BuildingType.max_population_bonus : BuildingType → ℕ
  | .City => 25000
  | _ => 0

/-- Defense post reduces defender losses by 20%. -/
def BuildingType.defense_multiplier : BuildingType → Frac
  | .DefensePost => ⟨8, 10⟩
  | _ => ⟨1, 1⟩

/-- Gold mine grants +50% gold generation. -/
def BuildingType.gold_multiplier : BuildingType → Frac
  | .GoldMine => ⟨15, 10⟩
  | _ => ⟨1, 1⟩

/-- AI personality determining autonomous behavior (entities.rs). -/
inductive AIPersonality
  | Turtle
  | Aggressor
  | Balanced
  | Opportunist
  | Rusher
deriving DecidableEq, Repr, Inhabited

/-- A territory on the map (entities.rs). -/
structure Territory where
  id : ℕ
  owner : Option ℕ
  terrain : TerrainType
  building : Option BuildingType
  troops : ℕ
  neighbors : List ℕ
  position : Frac × Frac
deriving DecidableEq, Repr, Inhabited

/-- A player in the game, human or AI (entities.rs). -/
structure Player where
  id : ℕ
  name : String
  is_ai : Bool
  ai_personality : Option AIPersonality
  color : String
  population : ℕ
  max_population : ℕ
  gold : ℕ
  troop_ratio : Frac
  attack_ratio : Frac
  territories_controlled : ℕ
  is_alive : Bool
deriving DecidableEq, Repr, Inhabited

/-- Troops are the floor of `population × troop_ratio`. -/
def Player.troops (p : Player) : ℕ :=
  (Frac.ofNat p.population * p.troop_ratio).floorNat

/-- Workers are the remaining population. -/
def Player.workers (p : Player) : ℕ := p.population - p.troops

/-- Complete game state (entities.rs). -/
structure GameState where
  territories : List Territory
  players : List Player
  tick : ℕ
  game_speed : Frac
  is_paused : Bool
  game_time_seconds : ℕ
deriving DecidableEq, Repr, Inhabited

/-- Combat result after an attack (entities.rs).  The source encodes a
neutral defender as the nil UUID; the model keeps the `Option`. -/
structure CombatResult where
  attacker_id : ℕ
  defender_id : Option ℕ
  from_territory : ℕ
  to_territory : ℕ
  attacker_troops_committed : ℕ
  defender_troops : ℕ
  attacker_losses : ℕ
  defender_losses : ℕ
  territory_conquered : Bool
deriving DecidableEq, Repr, Inhabited

/-- Game statistics at end of game (entities.rs). -/
structure GameStats where
  winner : ℕ
  game_duration_seconds : ℕ
  territories_captured : ℕ
  total_battles : ℕ
  final_score : ℕ
deriving DecidableEq, Repr, Inhabited

/-- The indexed engine (state.rs): the world state plus the tick period.
The identifier→index tables are modelled by index search, see the header. -/
structure GameEngine where
  state : GameState
  tick_rate_ms : ℕ
deriving DecidableEq, Repr, Inhabited

/-- Index of the territory holding an identifier (the `territory_map`). -/
def GameEngine.territoryIdx? (e : GameEngine) (id : ℕ) : Option ℕ :=
  e.state.territories.findIdx? (fun t => t.id == id)

/-- Index of the player holding an identifier (the `player_map`). -/
def GameEngine.playerIdx? (e : GameEngine) (id : ℕ) : Option ℕ :=
  e.state.players.findIdx? (fun p => p.id == id)

/-- Territory lookup by identifier (`get_territory`). -/
def GameEngine.get_territory (e : GameEngine) (id : ℕ) : Except String Territory :=
  match e.territoryIdx? id with
  | some i => .ok (e.state.territories.getD i default)
  | none => .error "Territory not found"

/-- Player lookup by identifier (`get_player`). -/
def GameEngine.get_player (e : GameEngine) (id : ℕ) : Except String Player :=
  match e.playerIdx? id with
  | some i => .ok (e.state.players.getD i default)
  | none => .error "Player not found"

/-- Mutable territory lookup (`get_territory_mut`): apply an in-place update,
`none` when the identifier is unknown. -/
def GameEngine.modify_territory? (e : GameEngine) (id : ℕ) (f : Territory → Territory) :
    Option GameEngine :=
  match e.territoryIdx? id with
  | some i => some { e with
      state := { e.state with
        territories := e.state.territories.set i (f (e.state.territories.getD i default)) } }
  | none => none

/-- Mutable player lookup (`get_player_mut`): apply an in-place update,
`none` when the identifier is unknown. -/
def GameEngine.modify_player? (e : GameEngine) (id : ℕ) (f : Player → Player) :
    Option GameEngine :=
  match e.playerIdx? id with
  | some i => some { e with
      state := { e.state with
        players := e.state.players.set i (f (e.state.players.getD i default)) } }
  | none => none

/-- Combat outcome from troop counts and terrain/structure modifiers
(combat.rs `calculate_combat`).  The source `unwrap`s the territory lookup;
the lookup failure (unreachable at the call site) is modelled as an error. -/
def GameEngine.calculate_combat (e : GameEngine) (attacker_troops defender_troops : ℕ)
    (defender_territory : ℕ) : Except String (ℕ × ℕ × Bool) :=
  match e.get_territory defender_territory with
  | .error msg => .error msg
  | .ok territory =>
    let dm := territory.terrain.defense_multiplier
    let defense_multiplier := match territory.building with
      | some building => dm * building.defense_multiplier
      | none => dm
    let bl :=
      if attacker_troops > defender_troops then
        ((Frac.ofNat defender_troops * ⟨3, 10⟩).floorNat, defender_troops)
      else if attacker_troops < defender_troops then
        (attacker_troops, (Frac.ofNat attacker_troops * ⟨5, 10⟩).floorNat)
      else
        ((Frac.ofNat attacker_troops * ⟨7, 10⟩).floorNat,
         (Frac.ofNat defender_troops * ⟨7, 10⟩).floorNat)
    let defender_losses := (Frac.ofNat bl.2 * defense_multiplier).floorNat
    let attacker_losses := bl.1
    let territory_conquered := defender_troops ≤ defender_losses
    .ok (attacker_losses, defender_losses, territory_conquered)

/-- Execute an attack from one territory to another (combat.rs
`execute_attack`).  Returns the engine as mutated so far together with the
command result, mirroring `&mut self` + early `?` returns. -/
def GameEngine.execute_attack (e : GameEngine)
    (attacker_id from_territory to_territory : ℕ) :
    GameEngine × Except String CombatResult :=
  match e.get_territory from_territory with
  | .error msg => (e, .error msg)
  | .ok from_t =>
    if from_t.owner ≠ some attacker_id then
      (e, .error "You do not own the attacking territory")
    else if to_territory ∉ from_t.neighbors then
      (e, .error "Territories are not neighbors")
    else
      match e.get_territory to_territory with
      | .error msg => (e, .error msg)
      | .ok to_t =>
        if to_t.owner = some attacker_id then
          (e, .error "Cannot attack your own territory")
        else
          let defender_id := to_t.owner
          match e.get_player attacker_id with
          | .error msg => (e, .error msg)
          | .ok attacker =>
            let total_attacker_troops := attacker.troops
            let attacker_troops :=
              (Frac.ofNat total_attacker_troops * attacker.attack_ratio).floorNat
            if attacker_troops = 0 then
              (e, .error "No troops available to attack")
            else
              let defender_troops := to_t.troops
              match e.calculate_combat attacker_troops defender_troops to_territory with
              | .error msg => (e, .error msg)
              | .ok (attacker_losses, defender_losses, territory_conquered) =>
                match e.modify_player? attacker_id
                    (fun p => { p with population := p.population - attacker_losses }) with
                | none => (e, .error "Player not found")
                | some e1 =>
                  let step2 : Option GameEngine :=
                    match defender_id with
                    | some did => e1.modify_player? did
                        (fun p => { p with population := p.population - defender_losses })
                    | none => some e1
                  match step2 with
                  | none => (e1, .error "Player not found")
                  | some e2 =>
                    match e2.modify_territory? to_territory (fun t =>
                        if territory_conquered then
                          { t with owner := some attacker_id,
                                   troops := attacker_troops - attacker_losses }
                        else
                          { t with troops := defender_troops - defender_losses }) with
                    | none => (e2, .error "Territory not found")
                    | some e3 =>
                      (e3, .ok {
                        attacker_id := attacker_id
                        defender_id := defender_id
                        from_territory := from_territory
                        to_territory := to_territory
                        attacker_troops_committed := attacker_troops
                        defender_troops := defender_troops
                        attacker_losses := attacker_losses
                        defender_losses := defender_losses
                        territory_conquered := territory_conquered })

/-- Distribute troops evenly across all of a player's territories
(combat.rs `distribute_troops`). -/
def GameEngine.distribute_troops (e : GameEngine) (player_id : ℕ) : GameEngine :=
  match e.get_player player_id with
  | .error _ => e
  | .ok player =>
    let total_troops := player.troops
    let territory_count := player.territories_controlled
    if territory_count = 0 then e
    else
      let troops_per_territory := total_troops / territory_count
      { e with state := { e.state with
          territories := e.state.territories.map (fun t =>
            if t.owner = some player_id then { t with troops := troops_per_territory }
            else t) } }

/-- Average population-growth terrain multiplier over owned territories
(state.rs `calculate_population_growth_bonus`): the accumulator starts at 1
and sums each owned territory's full terrain multiplier before dividing by
the owned-territory count; 1 when no territory is owned. -/
def GameEngine.calculate_population_growth_bonus (e : GameEngine) (player_id : ℕ) : Frac :=
  let acc := e.state.territories.foldl
    (fun (acc : Frac × ℕ) t =>
      if t.owner = some player_id then
        (acc.1 + t.terrain.population_growth_multiplier, acc.2 + 1)
      else acc)
    (⟨1, 1⟩, 0)
  if acc.2 > 0 then acc.1 / Frac.ofNat acc.2 else ⟨1, 1⟩

/-- Average gold terrain×building multiplier over owned territories
(state.rs `calculate_gold_generation_bonus`), same accumulator shape. -/
def GameEngine.calculate_gold_generation_bonus (e : GameEngine) (player_id : ℕ) : Frac :=
  let acc := e.state.territories.foldl
    (fun (acc : Frac × ℕ) t =>
      if t.owner = some player_id then
        let m := t.terrain.gold_multiplier
        let m := match t.building with
          | some building => m * building.gold_multiplier
          | none => m
        (acc.1 + m, acc.2 + 1)
      else acc)
    (⟨1, 1⟩, 0)
  if acc.2 > 0 then acc.1 / Frac.ofNat acc.2 else ⟨1, 1⟩

/-- The body of the resource loop of state.rs `update_resources` for one
player identifier: population growth capped at `max_population`, gold
generation added.  Skips (returns the engine unchanged) when the identifier
is unknown, like the `continue` / `if let Ok` in the source. -/
def GameEngine.update_resources_step (e : GameEngine) (player_id : ℕ) : GameEngine :=
  match e.get_player player_id with
  | .error _ => e
  | .ok player =>
    let tick_rate_sec : Frac := ⟨e.tick_rate_ms, 1000⟩
    let territories_controlled := player.territories_controlled
    let workers := player.workers
    let base_growth : Frac := ⟨10 * territories_controlled, 1⟩
    let terrain_bonus := e.calculate_population_growth_bonus player_id
    let population_growth :=
      (base_growth * terrain_bonus * tick_rate_sec * e.state.game_speed).floorNat
    let base_gold : Frac := ⟨workers, 10⟩
    let gold_bonus := e.calculate_gold_generation_bonus player_id
    let gold_generation :=
      (base_gold * gold_bonus * tick_rate_sec * e.state.game_speed).floorNat
    match e.modify_player? player_id (fun p =>
        { p with population := min (p.population + population_growth) p.max_population,
                 gold := p.gold + gold_generation }) with
    | some e1 => e1
    | none => e

/-- Per-tick resource accrual (state.rs `update_resources`): the loop over
the identifiers of the currently alive players. -/
def GameEngine.update_resources (e : GameEngine) : GameEngine :=
  let player_ids := (e.state.players.filter (fun p => p.is_alive)).map (fun p => p.id)
  player_ids.foldl (fun e pid => e.update_resources_step pid) e

/-- Per-tick bookkeeping (state.rs `update_territory_counts`): reset all
`territories_controlled`, recount by scanning territories, then mark players
with no territory as eliminated (one-way). -/
def GameEngine.update_territory_counts (e : GameEngine) : GameEngine :=
  let players1 := e.state.players.map (fun p => { p with territories_controlled := 0 })
  let players2 := e.state.territories.foldl (fun (ps : List Player) t =>
    match t.owner with
    | some owner_id =>
      match ps.findIdx? (fun p => p.id == owner_id) with
      | some i => ps.set i
          (let p := ps.getD i default
           { p with territories_controlled := p.territories_controlled + 1 })
      | none => ps
    | none => ps) players1
  let players3 := players2.map (fun p =>
    if p.territories_controlled = 0 ∧ p.is_alive then { p with is_alive := false } else p)
  { e with state := { e.state with players := players3 } }

/-- Advance the simulation by one tick (state.rs `tick`): no-op when paused,
otherwise bump the tick counter, advance game time (stored in whole seconds,
so the float sum is truncated), accrue resources, recount territories. -/
def GameEngine.tick (e : GameEngine) : GameEngine :=
  if e.state.is_paused then e
  else
    let e1 : GameEngine := { e with state := { e.state with tick := e.state.tick + 1 } }
    let time_increment : Frac := Frac.ofNat e1.tick_rate_ms * e1.state.game_speed / ⟨1000, 1⟩
    let e2 : GameEngine := { e1 with state := { e1.state with
        game_time_seconds :=
          (Frac.ofNat e1.state.game_time_seconds + time_increment).floorNat } }
    e2.update_resources.update_territory_counts

/-- Clamp and store a player's troop ratio (state.rs `set_troop_ratio`). -/
def GameEngine.set_troop_ratio (e : GameEngine) (player_id : ℕ) (ratio : Frac) :
    GameEngine × Except String Unit :=
  let ratio := ratio.clamp ⟨0, 1⟩ ⟨1, 1⟩
  match e.modify_player? player_id (fun p => { p with troop_ratio := ratio }) with
  | some e1 => (e1, .ok ())
  | none => (e, .error "Player not found")

/-- Clamp and store a player's attack ratio (state.rs `set_attack_ratio`). -/
def GameEngine.set_attack_ratio (e : GameEngine) (player_id : ℕ) (ratio : Frac) :
    GameEngine × Except String Unit :=
  let ratio := ratio.clamp ⟨0, 1⟩ ⟨1, 1⟩
  match e.modify_player? player_id (fun p => { p with attack_ratio := ratio }) with
  | some e1 => (e1, .ok ())
  | none => (e, .error "Player not found")

/-- Build a structure in a territory (state.rs `build_structure`). -/
def GameEngine.build_structure (e : GameEngine) (player_id territory_id : ℕ)
    (building_type : BuildingType) : GameEngine × Except String Unit :=
  match e.get_territory territory_id with
  | .error msg => (e, .error msg)
  | .ok territory =>
    if territory.owner ≠ some player_id then
      (e, .error "You do not own this territory")
    else if territory.building.isSome then
      (e, .error "Territory already has a building")
    else
      match e.get_player player_id with
      | .error msg => (e, .error msg)
      | .ok player =>
        let cost := building_type.cost
        if player.gold < cost then
          (e, .error "Not enough gold")
        else
          match e.modify_player? player_id (fun p =>
              let p := { p with gold := p.gold - cost }
              if building_type = BuildingType.City then
                { p with max_population := p.max_population + building_type.max_population_bonus }
              else p) with
          | none => (e, .error "Player not found")
          | some e1 =>
            match e1.modify_territory? territory_id
                (fun t => { t with building := some building_type }) with
            | none => (e1, .error "Territory not found")
            | some e2 => (e2, .ok ())

/-- Game-over query (state.rs `check_game_over`): a result exactly when one
player is alive. -/
def GameEngine.check_game_over (e : GameEngine) : Option GameStats :=
  let alive_players := e.state.players.filter (fun p => p.is_alive)
  if alive_players.length = 1 then
    let winner := alive_players.getD 0 default
    some {
      winner := winner.id
      game_duration_seconds := e.state.game_time_seconds
      territories_captured := winner.territories_controlled
      total_battles := 0
      final_score := winner.territories_controlled * 100 + winner.gold / 10 }
  else
    none

/-- Pause or unpause the game (state.rs `set_paused`). -/
def GameEngine.set_paused (e : GameEngine) (paused : Bool) : GameEngine :=
  { e with state := { e.state with is_paused := paused } }

/-- Set the game speed, clamped to [0.5, 4.0] (state.rs `set_game_speed`). -/
def GameEngine.set_game_speed (e : GameEngine) (speed : Frac) : GameEngine :=
  { e with state := { e.state with game_speed := speed.clamp ⟨5, 10⟩ ⟨4, 1⟩ } }

/-- Body of the neighbor loop of ai.rs `try_attack`: the candidate entries a
single (owned territory, neighbor) pair contributes to the attack-option
list.  Neighbors we own are skipped, and an entry is pushed only under
`if let Some(defender_id) = neighbor.owner`. -/
def GameEngine.attack_option_step (e : GameEngine) (player_id tid nid : ℕ) :
    Except String (List (ℕ × ℕ × ℕ × ℕ)) :=
  match e.get_territory nid with
  | .error msg => .error msg
  | .ok neighbor =>
    if neighbor.owner = some player_id then .ok []
    else
      match neighbor.owner with
      | some defender_id =>
        match e.get_player defender_id with
        | .error msg => .error msg
        | .ok defender =>
          .ok [(tid, nid, neighbor.troops, defender.territories_controlled)]
      | none => .ok []

/-- The attack-option list enumerated by ai.rs `try_attack` before target
selection: all entries pushed by the double loop over owned territories and
their neighbors, in loop order. -/
def GameEngine.try_attack_options (e : GameEngine) (player_id : ℕ) :
    Except String (List (ℕ × ℕ × ℕ × ℕ)) := do
  let owned := (e.state.territories.filter (fun t => t.owner = some player_id)).map
    (fun t => (t.id, t.neighbors))
  let lss ← owned.mapM (fun p => do
    let ls ← p.2.mapM (fun nid => e.attack_option_step player_id p.1 nid)
    pure ls.flatten)
  pure lss.flatten

/-- The command surface mapping 1:1 to Engine operations, plus the tick. -/
inductive Command
  | attack (attacker_id from_territory to_territory : ℕ)
  | buildStructure (player_id territory_id : ℕ) (building_type : BuildingType)
  | setTroopRatio (player_id : ℕ) (ratio : Frac)
  | setAttackRatio (player_id : ℕ) (ratio : Frac)
  | pauseGame
  | resumeGame
  | setGameSpeed (speed : Frac)
  | tick
deriving DecidableEq, Repr

/-- State reached after one Engine operation (for a fallible command, the
engine component it returns, whether or not the command succeeded). -/
def GameEngine.apply_command (e : GameEngine) : Command → GameEngine
  | .attack a f t => (e.execute_attack a f t).1
  | .buildStructure p t b => (e.build_structure p t b).1
  | .setTroopRatio p r => (e.set_troop_ratio p r).1
  | .setAttackRatio p r => (e.set_attack_ratio p r).1
  | .pauseGame => e.set_paused true
  | .resumeGame => e.set_paused false
  | .setGameSpeed s => e.set_game_speed s
  | .tick => e.tick

/-- State reached after a sequence of Engine operations. -/
def GameEngine.run (e : GameEngine) : List Command → GameEngine
  | [] => e
  | c :: cs => (e.apply_command c).run cs

/-! Infrastructure lemmas about `List.findIdx?`, `List.set` and folds, used to
reason about the index-table lookups of the engine. -/

/-- `findIdx?` on a cons, with the accumulator eliminated. -/
theorem aux_findIdx?_cons {α} (p : α → Bool) (x : α) (xs : List α) :
    (x :: xs).findIdx? p =
      if p x then some 0 else (xs.findIdx? p).map (fun i => i + 1) := by
  rw [List.findIdx?_cons]
  split
  · rfl
  · rw [List.findIdx?_succ]

/-- A found index is in bounds. -/
theorem aux_findIdx?_lt_length {α} {p : α → Bool} :
    ∀ {l : List α} {i : ℕ}, l.findIdx? p = some i → i < l.length := by
  intro l
  induction l with
  | nil => intro i h; simp [List.findIdx?] at h
  | cons x xs ih =>
    intro i h
    rw [aux_findIdx?_cons] at h
    by_cases hx : p x
    · simp [hx] at h
      simp [List.length_cons]
      omega
    · simp [hx] at h
      obtain ⟨j, hj, rfl⟩ := h
      have := ih hj
      simp [List.length_cons]
      omega

/-- The element at a found index satisfies the predicate. -/
theorem aux_findIdx?_pred {α} {p : α → Bool} {d : α} :
    ∀ {l : List α} {i : ℕ}, l.findIdx? p = some i → p (l.getD i d) = true := by
  intro l
  induction l with
  | nil => intro i h; simp [List.findIdx?] at h
  | cons x xs ih =>
    intro i h
    rw [aux_findIdx?_cons] at h
    by_cases hx : p x
    · simp [hx] at h
      subst h
      simpa using hx
    · simp [hx] at h
      obtain ⟨j, hj, rfl⟩ := h
      simpa using ih hj

/-- Elements strictly before a found index falsify the predicate. -/
theorem aux_findIdx?_before {α} {p : α → Bool} {d : α} :
    ∀ {l : List α} {i : ℕ}, l.findIdx? p = some i →
      ∀ j, j < i → p (l.getD j d) = false := by
  intro l
  induction l with
  | nil => intro i h; simp [List.findIdx?] at h
  | cons x xs ih =>
    intro i h j hj
    rw [aux_findIdx?_cons] at h
    by_cases hx : p x
    · simp [hx] at h
      omega
    · simp [hx] at h
      obtain ⟨k, hk, rfl⟩ := h
      cases j with
      | zero => simpa using eq_false_of_ne_true hx
      | succ j => simpa using ih hk j (by omega)

/-- `findIdx?` is determined by the image of the list under a projection,
when the predicate factors through that projection. -/
theorem aux_findIdx?_congr {α β} (g : α → β) (q : β → Bool) :
    ∀ {l l' : List α}, l.map g = l'.map g →
      l.findIdx? (fun a => q (g a)) = l'.findIdx? (fun a => q (g a)) := by
  intro l
  induction l with
  | nil =>
    intro l' h
    cases l' with
    | nil => rfl
    | cons y ys => simp at h
  | cons x xs ih =>
    intro l' h
    cases l' with
    | nil => simp at h
    | cons y ys =>
      simp only [List.map_cons, List.cons.injEq] at h
      rw [aux_findIdx?_cons, aux_findIdx?_cons, h.1, ih h.2]

/-- `getD` after `set` at a different index. -/
theorem aux_getD_set_ne {α} {l : List α} {i j : ℕ} (h : i ≠ j) (a d : α) :
    (l.set i a).getD j d = l.getD j d := by
  rw [List.getD_eq_getElem?_getD, List.getD_eq_getElem?_getD, List.getElem?_set_ne h]

/-- `getD` after `set` at the same (in-bounds) index. -/
theorem aux_getD_set_self {α} {l : List α} {i : ℕ} (h : i < l.length) (a d : α) :
    (l.set i a).getD i d = a := by
  rw [List.getD_eq_getElem?_getD, List.getElem?_set_self h]
  rfl

/-- Setting an index to the value it already holds is the identity. -/
theorem aux_set_self {α} {d : α} :
    ∀ {l : List α} {i : ℕ}, l.set i (l.getD i d) = l := by
  intro l
  induction l with
  | nil => intro i; rfl
  | cons x xs ih =>
    intro i
    cases i with
    | zero => rfl
    | succ i => simpa [List.set] using ih

/-- A `foldl` preserves any property preserved by each step. -/
theorem aux_foldl_preserve {α β} {P : β → Prop} {f : β → α → β} :
    ∀ {l : List α} {b : β}, (∀ b' a, a ∈ l → P b' → P (f b' a)) → P b →
      P (l.foldl f b) := by
  intro l
  induction l with
  | nil => intro b _ hb; exact hb
  | cons x xs ih =>
    intro b hstep hb
    exact ih (fun b' a ha hb' => hstep b' a (List.mem_cons_of_mem _ ha) hb')
      (hstep b x (List.mem_cons_self _ _) hb)

/-- Membership in the result of a successful `Except` `mapM`. -/
theorem aux_mapM_ok_mem {ε α β} {f : α → Except ε β} :
    ∀ {l : List α} {res : List β}, l.mapM f = .ok res →
      ∀ b, (b ∈ res ↔ ∃ a ∈ l, f a = .ok b) := by
  intro l
  induction l with
  | nil =>
    intro res h b
    simp only [List.mapM_nil, pure] at h
    cases h
    simp
  | cons x xs ih =>
    intro res h b
    rw [List.mapM_cons] at h
    cases hx : f x with
    | error err => rw [hx] at h; exact absurd h (fun hh => Except.noConfusion hh)
    | ok b0 =>
      rw [hx] at h
      cases hxs : xs.mapM f with
      | error err =>
        rw [hxs] at h
        exact absurd h (fun hh => Except.noConfusion hh)
      | ok res0 =>
        rw [hxs] at h
        have hres : b0 :: res0 = res := Except.ok.inj h
        subst hres
        have ihm := ih hxs
        constructor
        · intro hb
          rcases List.mem_cons.1 hb with rfl | hb
          · exact ⟨x, List.mem_cons_self _ _, hx⟩
          · obtain ⟨a, ha, hfa⟩ := (ihm b).1 hb
            exact ⟨a, List.mem_cons_of_mem _ ha, hfa⟩
        · rintro ⟨a, ha, hfa⟩
          rcases List.mem_cons.1 ha with rfl | ha
          · rw [hfa] at hx
            cases hx
            exact List.mem_cons_self _ _
          · exact List.mem_cons_of_mem _ ((ihm b).2 ⟨a, ha, hfa⟩)

/-- An `Except` `mapM` succeeds when every step succeeds. -/
theorem aux_mapM_exists_ok {ε α β} {f : α → Except ε β} :
    ∀ {l : List α}, (∀ a ∈ l, ∃ b, f a = .ok b) →
      ∃ res, l.mapM f = .ok res := by
  intro l
  induction l with
  | nil => intro _; exact ⟨[], rfl⟩
  | cons x xs ih =>
    intro h
    obtain ⟨b0, hb0⟩ := h x (List.mem_cons_self _ _)
    obtain ⟨res0, hres0⟩ := ih (fun a ha => h a (List.mem_cons_of_mem _ ha))
    refine ⟨b0 :: res0, ?_⟩
    rw [List.mapM_cons, hb0, hres0]
    rfl

/-- `getD` commutes with `map`. -/
theorem aux_getD_map {α β} (g : α → β) (d : α) :
    ∀ (l : List α) (i : ℕ), (l.map g).getD i (g d) = g (l.getD i d) := by
  intro l
  induction l with
  | nil => intro i; rfl
  | cons x xs ih =>
    intro i
    cases i with
    | zero => rfl
    | succ i => simp [ih i]

/-- Replacing an element by one with the same identifier leaves the
identifier image of the player list unchanged. -/
theorem aux_player_ids_set {players : List Player} {i : ℕ} {x : Player}
    (_hi : i < players.length) (hid : x.id = (players.getD i default).id) :
    (players.set i x).map Player.id = players.map Player.id := by
  rw [List.map_set, hid]
  have hmap : (players.getD i default).id =
      (players.map Player.id).getD i (Player.id default) := (aux_getD_map _ _ _ _).symm
  rw [hmap]
  exact aux_set_self

/-- Same statement for territories. -/
theorem aux_territory_ids_set {ts : List Territory} {i : ℕ} {x : Territory}
    (_hi : i < ts.length) (hid : x.id = (ts.getD i default).id) :
    (ts.set i x).map Territory.id = ts.map Territory.id := by
  rw [List.map_set, hid]
  have hmap : (ts.getD i default).id =
      (ts.map Territory.id).getD i (Territory.id default) := (aux_getD_map _ _ _ _).symm
  rw [hmap]
  exact aux_set_self

/-- Player index lookup only depends on the identifier image. -/
theorem aux_playerIdx?_congr {e e' : GameEngine}
    (h : e'.state.players.map Player.id = e.state.players.map Player.id) (q : ℕ) :
    e'.playerIdx? q = e.playerIdx? q :=
  aux_findIdx?_congr Player.id (fun b => b == q) h

/-- Territory index lookup only depends on the identifier image. -/
theorem aux_territoryIdx?_congr {e e' : GameEngine}
    (h : e'.state.territories.map Territory.id = e.state.territories.map Territory.id) (q : ℕ) :
    e'.territoryIdx? q = e.territoryIdx? q :=
  aux_findIdx?_congr Territory.id (fun b => b == q) h

/-- Successful player lookup, characterised. -/
theorem aux_get_player_ok {e : GameEngine} {pid : ℕ} {pl : Player}
    (h : e.get_player pid = .ok pl) :
    ∃ i, e.playerIdx? pid = some i ∧ i < e.state.players.length ∧
      pl = e.state.players.getD i default ∧ pl.id = pid := by
  unfold GameEngine.get_player at h
  cases hidx : e.playerIdx? pid with
  | none => rw [hidx] at h; exact absurd h (fun hh => Except.noConfusion hh)
  | some i =>
    rw [hidx] at h
    have hpl := Except.ok.inj h
    refine ⟨i, rfl, aux_findIdx?_lt_length hidx, hpl.symm, ?_⟩
    have hpred := aux_findIdx?_pred (d := default) hidx
    rw [hpl] at hpred
    exact eq_of_beq hpred

/-- Successful territory lookup, characterised. -/
theorem aux_get_territory_ok {e : GameEngine} {tid : ℕ} {t : Territory}
    (h : e.get_territory tid = .ok t) :
    ∃ i, e.territoryIdx? tid = some i ∧ i < e.state.territories.length ∧
      t = e.state.territories.getD i default ∧ t.id = tid := by
  unfold GameEngine.get_territory at h
  cases hidx : e.territoryIdx? tid with
  | none => rw [hidx] at h; exact absurd h (fun hh => Except.noConfusion hh)
  | some i =>
    rw [hidx] at h
    have ht := Except.ok.inj h
    refine ⟨i, rfl, aux_findIdx?_lt_length hidx, ht.symm, ?_⟩
    have hpred := aux_findIdx?_pred (d := default) hidx
    rw [ht] at hpred
    exact eq_of_beq hpred

/-- A found territory is an element of the territory list. -/
theorem aux_get_territory_mem {e : GameEngine} {tid : ℕ} {t : Territory}
    (h : e.get_territory tid = .ok t) : t ∈ e.state.territories := by
  obtain ⟨i, _, hlt, ht, _⟩ := aux_get_territory_ok h
  rw [ht, List.getD_eq_getElem?_getD, List.getElem?_eq_getElem hlt]
  exact List.getElem_mem hlt

/-- Characterisation of a successful `modify_player?`. -/
theorem aux_modify_player?_some {e e' : GameEngine} {pid : ℕ} {f : Player → Player}
    (h : e.modify_player? pid f = some e') :
    ∃ i, e.playerIdx? pid = some i ∧ i < e.state.players.length ∧
      (e.state.players.getD i default).id = pid ∧
      e'.state.players = e.state.players.set i (f (e.state.players.getD i default)) ∧
      e'.state.territories = e.state.territories ∧
      e'.state.tick = e.state.tick ∧
      e'.state.game_speed = e.state.game_speed ∧
      e'.state.is_paused = e.state.is_paused ∧
      e'.state.game_time_seconds = e.state.game_time_seconds ∧
      e'.tick_rate_ms = e.tick_rate_ms := by
  unfold GameEngine.modify_player? at h
  cases hidx : e.playerIdx? pid with
  | none => rw [hidx] at h; exact absurd h (fun hh => Option.noConfusion hh)
  | some i =>
    rw [hidx] at h
    have he := Option.some.inj h
    subst he
    have hpred := aux_findIdx?_pred (d := default) hidx
    exact ⟨i, rfl, aux_findIdx?_lt_length hidx, eq_of_beq hpred,
      rfl, rfl, rfl, rfl, rfl, rfl, rfl⟩

/-- Characterisation of a successful `modify_territory?`. -/
theorem aux_modify_territory?_some {e e' : GameEngine} {tid : ℕ} {f : Territory → Territory}
    (h : e.modify_territory? tid f = some e') :
    ∃ i, e.territoryIdx? tid = some i ∧ i < e.state.territories.length ∧
      (e.state.territories.getD i default).id = tid ∧
      e'.state.territories = e.state.territories.set i (f (e.state.territories.getD i default)) ∧
      e'.state.players = e.state.players ∧
      e'.state.tick = e.state.tick ∧
      e'.state.game_speed = e.state.game_speed ∧
      e'.state.is_paused = e.state.is_paused ∧
      e'.state.game_time_seconds = e.state.game_time_seconds ∧
      e'.tick_rate_ms = e.tick_rate_ms := by
  unfold GameEngine.modify_territory? at h
  cases hidx : e.territoryIdx? tid with
  | none => rw [hidx] at h; exact absurd h (fun hh => Option.noConfusion hh)
  | some i =>
    rw [hidx] at h
    have he := Option.some.inj h
    subst he
    have hpred := aux_findIdx?_pred (d := default) hidx
    exact ⟨i, rfl, aux_findIdx?_lt_length hidx, eq_of_beq hpred,
      rfl, rfl, rfl, rfl, rfl, rfl, rfl⟩

/-- `modify_player?` succeeds exactly when the lookup succeeds. -/
theorem aux_modify_player?_isSome {e : GameEngine} {pid : ℕ} {f : Player → Player} :
    (e.modify_player? pid f).isSome = (e.playerIdx? pid).isSome := by
  unfold GameEngine.modify_player?
  cases e.playerIdx? pid <;> rfl

/-- `modify_territory?` succeeds exactly when the lookup succeeds. -/
theorem aux_modify_territory?_isSome {e : GameEngine} {tid : ℕ} {f : Territory → Territory} :
    (e.modify_territory? tid f).isSome = (e.territoryIdx? tid).isSome := by
  unfold GameEngine.modify_territory?
  cases e.territoryIdx? tid <;> rfl

/-- Player lookup after an id-preserving `set`, for a different identifier:
unchanged. -/
theorem aux_get_player_set_ne {e e' : GameEngine} {i : ℕ} {x : Player} {q : ℕ}
    (hp : e'.state.players = e.state.players.set i x)
    (hi : i < e.state.players.length)
    (hid : x.id = (e.state.players.getD i default).id)
    (hq : x.id ≠ q) :
    e'.get_player q = e.get_player q := by
  have hids : e'.state.players.map Player.id = e.state.players.map Player.id := by
    rw [hp]; exact aux_player_ids_set hi hid
  have hidx := aux_playerIdx?_congr hids q
  unfold GameEngine.get_player
  rw [hidx]
  cases hfind : e.playerIdx? q with
  | none => rfl
  | some k =>
    have hpred := aux_findIdx?_pred (d := default) hfind
    have hkid : (e.state.players.getD k default).id = q := eq_of_beq hpred
    have hki : k ≠ i := by
      intro hik
      rw [hik] at hkid
      rw [← hid] at hkid
      exact hq hkid
    rw [hp]
    dsimp only
    rw [aux_getD_set_ne (fun hh => hki hh.symm)]

/-- Player lookup after an id-preserving `set` at the looked-up index: the
new element. -/
theorem aux_get_player_set_self {e e' : GameEngine} {i : ℕ} {x : Player} {q : ℕ}
    (hp : e'.state.players = e.state.players.set i x)
    (hfind : e.playerIdx? q = some i)
    (hid : x.id = (e.state.players.getD i default).id) :
    e'.get_player q = .ok x := by
  have hi := aux_findIdx?_lt_length hfind
  have hids : e'.state.players.map Player.id = e.state.players.map Player.id := by
    rw [hp]; exact aux_player_ids_set hi hid
  have hidx := aux_playerIdx?_congr hids q
  unfold GameEngine.get_player
  rw [hidx, hfind, hp]
  dsimp only
  rw [aux_getD_set_self hi]

/-- Territory lookup after an id-preserving `set`, for a different
identifier: unchanged. -/
theorem aux_get_territory_set_ne {e e' : GameEngine} {i : ℕ} {x : Territory} {q : ℕ}
    (hp : e'.state.territories = e.state.territories.set i x)
    (hi : i < e.state.territories.length)
    (hid : x.id = (e.state.territories.getD i default).id)
    (hq : x.id ≠ q) :
    e'.get_territory q = e.get_territory q := by
  have hids : e'.state.territories.map Territory.id = e.state.territories.map Territory.id := by
    rw [hp]; exact aux_territory_ids_set hi hid
  have hidx := aux_territoryIdx?_congr hids q
  unfold GameEngine.get_territory
  rw [hidx]
  cases hfind : e.territoryIdx? q with
  | none => rfl
  | some k =>
    have hpred := aux_findIdx?_pred (d := default) hfind
    have hkid : (e.state.territories.getD k default).id = q := eq_of_beq hpred
    have hki : k ≠ i := by
      intro hik
      rw [hik] at hkid
      rw [← hid] at hkid
      exact hq hkid
    rw [hp]
    dsimp only
    rw [aux_getD_set_ne (fun hh => hki hh.symm)]

/-- Territory lookup after an id-preserving `set` at the looked-up index:
the new element. -/
theorem aux_get_territory_set_self {e e' : GameEngine} {i : ℕ} {x : Territory} {q : ℕ}
    (hp : e'.state.territories = e.state.territories.set i x)
    (hfind : e.territoryIdx? q = some i)
    (hid : x.id = (e.state.territories.getD i default).id) :
    e'.get_territory q = .ok x := by
  have hi := aux_findIdx?_lt_length hfind
  have hids : e'.state.territories.map Territory.id = e.state.territories.map Territory.id := by
    rw [hp]; exact aux_territory_ids_set hi hid
  have hidx := aux_territoryIdx?_congr hids q
  unfold GameEngine.get_territory
  rw [hidx, hfind, hp]
  dsimp only
  rw [aux_getD_set_self hi]

/-! Frame lemmas for the tick-internal passes. -/

/-- `update_resources_step` touches only the player list. -/
theorem aux_update_resources_step_frame (e : GameEngine) (pid : ℕ) :
    (e.update_resources_step pid).state.territories = e.state.territories ∧
    (e.update_resources_step pid).state.tick = e.state.tick ∧
    (e.update_resources_step pid).state.game_speed = e.state.game_speed ∧
    (e.update_resources_step pid).state.is_paused = e.state.is_paused ∧
    (e.update_resources_step pid).state.game_time_seconds = e.state.game_time_seconds ∧
    (e.update_resources_step pid).tick_rate_ms = e.tick_rate_ms := by
  unfold GameEngine.update_resources_step
  split
  · exact ⟨rfl, rfl, rfl, rfl, rfl, rfl⟩
  · dsimp only
    split
    · next e1 heq =>
        obtain ⟨i, _, _, _, _, hterr, htick, hspeed, hpaused, htime, hrate⟩ :=
          aux_modify_player?_some heq
        exact ⟨hterr, htick, hspeed, hpaused, htime, hrate⟩
    · exact ⟨rfl, rfl, rfl, rfl, rfl, rfl⟩

/-- `update_resources` touches only the player list. -/
theorem aux_update_resources_frame (e : GameEngine) :
    (e.update_resources).state.territories = e.state.territories ∧
    (e.update_resources).state.tick = e.state.tick ∧
    (e.update_resources).state.game_speed = e.state.game_speed ∧
    (e.update_resources).state.is_paused = e.state.is_paused ∧
    (e.update_resources).state.game_time_seconds = e.state.game_time_seconds ∧
    (e.update_resources).tick_rate_ms = e.tick_rate_ms := by
  unfold GameEngine.update_resources
  refine aux_foldl_preserve (P := fun e' : GameEngine =>
    e'.state.territories = e.state.territories ∧
    e'.state.tick = e.state.tick ∧
    e'.state.game_speed = e.state.game_speed ∧
    e'.state.is_paused = e.state.is_paused ∧
    e'.state.game_time_seconds = e.state.game_time_seconds ∧
    e'.tick_rate_ms = e.tick_rate_ms) ?_ ⟨rfl, rfl, rfl, rfl, rfl, rfl⟩
  intro b a _ hb
  have hs := aux_update_resources_step_frame b a
  exact ⟨hs.1.trans hb.1, hs.2.1.trans hb.2.1, hs.2.2.1.trans hb.2.2.1,
    hs.2.2.2.1.trans hb.2.2.2.1, hs.2.2.2.2.1.trans hb.2.2.2.2.1,
    hs.2.2.2.2.2.trans hb.2.2.2.2.2⟩

/-- `update_territory_counts` touches only the player list. -/
theorem aux_update_territory_counts_frame (e : GameEngine) :
    (e.update_territory_counts).state.territories = e.state.territories ∧
    (e.update_territory_counts).state.tick = e.state.tick ∧
    (e.update_territory_counts).state.game_speed = e.state.game_speed ∧
    (e.update_territory_counts).state.is_paused = e.state.is_paused ∧
    (e.update_territory_counts).state.game_time_seconds = e.state.game_time_seconds ∧
    (e.update_territory_counts).tick_rate_ms = e.tick_rate_ms :=
  ⟨rfl, rfl, rfl, rfl, rfl, rfl⟩

/-- Combat outcome as the specification words it: loss formulas by force
comparison, a final defender loss scaled by the terrain and structure
defense multipliers (Mountains 0.7, Defense-Post 0.8, multiplicative, else
1), floored once, and conquest exactly when the final defender losses reach
the pre-battle defender troops. -/
def specCombatOutcome (terrain : TerrainType) (building : Option BuildingType) (a d : ℕ) :
    ℕ × ℕ × Bool :=
  let attacker_losses := if a > d then d * 3 / 10 else if a < d then a else a * 7 / 10
  let base := if a > d then d else if a < d then a * 5 / 10 else d * 7 / 10
  let tm : ℕ × ℕ := match terrain with | TerrainType.Mountains => (7, 10) | _ => (1, 1)
  let sm : ℕ × ℕ := match building with | some BuildingType.DefensePost => (8, 10) | _ => (1, 1)
  let defender_losses := base * (tm.1 * sm.1) / (tm.2 * sm.2)
  (attacker_losses, defender_losses, d ≤ defender_losses)

/-- C1: for every resolved attack with committed force `a ≥ 1` against a
territory holding `d` defender troops, `calculate_combat` returns exactly
the specification's loss formulas: attacker wins (`a > d`) gives attacker
losses `⌊0.3·d⌋` and base defender losses `d`; defender wins (`a < d`)
gives attacker losses `a` and base `⌊0.5·a⌋`; equal gives `⌊0.7·a⌋` and
`⌊0.7·d⌋`; the final defender losses are the base scaled by the terrain and
structure defense multipliers and floored, and conquest holds iff the final
defender losses are at least `d`. -/
theorem calculate_combat_correct (e : GameEngine) (a d tid : ℕ) (t : Territory)
    (ht : e.get_territory tid = .ok t) (_ha : 1 ≤ a) :
    e.calculate_combat a d tid = .ok (specCombatOutcome t.terrain t.building a d) := by
  unfold GameEngine.calculate_combat specCombatOutcome
  rw [ht]
  rcases t with ⟨tji, towner, terrain, building, ttroops, tnbrs, tpos⟩
  dsimp only
  cases terrain <;> rcases building with _ | b <;>
    first
      | (cases b <;> split_ifs <;> rfl)
      | (split_ifs <;> rfl)

/-- Concrete world for the C1 witness: one Plains territory, no structure. -/
def exW1 : GameEngine :=
  { state :=
      { territories := [{ id := 2, owner := none, terrain := .Plains, building := none,
                          troops := 40, neighbors := [1], position := (⟨0, 1⟩, ⟨0, 1⟩) }],
        players := [], tick := 0, game_speed := ⟨1, 1⟩, is_paused := false,
        game_time_seconds := 0 },
    tick_rate_ms := 100 }

/-- C1 witness: at `a = 100`, `d = 40`, Plains terrain, no structure, the
outcome is attacker losses 12, defender losses 40, conquest. -/
theorem calculate_combat_correct_witness :
    exW1.calculate_combat 100 40 2 = .ok (12, 40, true) := by
  have h := calculate_combat_correct exW1 100 40 2
    { id := 2, owner := none, terrain := .Plains, building := none,
      troops := 40, neighbors := [1], position := (⟨0, 1⟩, ⟨0, 1⟩) }
    (by rfl) (by decide)
  rw [h]
  rfl

/-- C4 (amended): a paused tick is a no-op; an unpaused tick increments the
tick counter by one and sets the elapsed game time to the floor of the old
time plus `tick_period × speed` seconds — the elapsed time is stored in
whole seconds, so the fractional part of the increment is discarded each
tick rather than the time advancing by exactly `tick_period × speed`. -/
theorem tick_spec (e : GameEngine) :
    (e.state.is_paused = true → e.tick = e) ∧
    (e.state.is_paused = false →
      (e.tick).state.tick = e.state.tick + 1 ∧
      (e.tick).state.game_time_seconds =
        (Frac.ofNat e.state.game_time_seconds +
          Frac.ofNat e.tick_rate_ms * e.state.game_speed / ⟨1000, 1⟩).floorNat) := by
  constructor
  · intro hp
    unfold GameEngine.tick
    simp [hp]
  · intro hp
    unfold GameEngine.tick
    simp only [hp, Bool.false_eq_true, if_false]
    constructor
    · rw [(aux_update_territory_counts_frame _).2.1, (aux_update_resources_frame _).2.1]
    · rw [(aux_update_territory_counts_frame _).2.2.2.2.1,
        (aux_update_resources_frame _).2.2.2.2.1]

/-- Concrete unpaused world for C4: default tick period 100 ms, speed 1. -/
def exW4 : GameEngine :=
  { state := { territories := [], players := [], tick := 0, game_speed := ⟨1, 1⟩,
               is_paused := false, game_time_seconds := 0 },
    tick_rate_ms := 100 }

/-- Paused variant of the C4 world. -/
def exW4p : GameEngine :=
  { state := { territories := [], players := [], tick := 0, game_speed := ⟨1, 1⟩,
               is_paused := true, game_time_seconds := 0 },
    tick_rate_ms := 100 }

/-- C4 counterexample: with the default 100 ms tick period and speed 1, an
unpaused tick increments the tick counter but leaves the elapsed game time
unchanged even though `tick_period × speed` is strictly positive — the tick
does not advance the elapsed time by exactly `tick_period × speed`. -/
theorem tick_time_does_not_advance :
    (exW4.tick).state.tick = exW4.state.tick + 1 ∧
    (exW4.tick).state.game_time_seconds = exW4.state.game_time_seconds ∧
    (⟨0, 1⟩ : Frac) < Frac.ofNat exW4.tick_rate_ms * exW4.state.game_speed / ⟨1000, 1⟩ := by
  refine ⟨rfl, rfl, ?_⟩
  decide

/-- C4 witness: the amended statement evaluated on the concrete worlds. -/
theorem tick_spec_witness :
    exW4p.tick = exW4p ∧ (exW4.tick).state.tick = 1 ∧
      (exW4.tick).state.game_time_seconds = 0 := by
  have h1 := (tick_spec exW4p).1 (by rfl)
  have h2 := (tick_spec exW4).2 (by rfl)
  exact ⟨h1, h2.1.trans (by rfl), h2.2.trans (by decide)⟩

/-- C8: the game-over query returns a result exactly when one single
participant is alive, and then reports that participant as winner with
final score `territories_controlled × 100 + gold / 10` (integer
division). -/
theorem check_game_over_spec (e : GameEngine) :
    ((∃ s, e.check_game_over = some s) ↔
      ∃ w, e.state.players.filter (fun p => p.is_alive) = [w]) ∧
    (∀ s w, e.check_game_over = some s →
      e.state.players.filter (fun p => p.is_alive) = [w] →
      s.winner = w.id ∧
      s.final_score = w.territories_controlled * 100 + w.gold / 10) := by
  constructor
  · constructor
    · rintro ⟨s, hs⟩
      unfold GameEngine.check_game_over at hs
      dsimp only at hs
      by_cases hlen : (e.state.players.filter (fun p => p.is_alive)).length = 1
      · exact List.length_eq_one.1 hlen
      · rw [if_neg hlen] at hs
        exact absurd hs (fun hh => Option.noConfusion hh)
    · rintro ⟨w, hw⟩
      unfold GameEngine.check_game_over
      refine ⟨{ winner := w.id, game_duration_seconds := e.state.game_time_seconds,
                territories_captured := w.territories_controlled, total_battles := 0,
                final_score := w.territories_controlled * 100 + w.gold / 10 }, ?_⟩
      simp [hw]
  · intro s w hs hw
    unfold GameEngine.check_game_over at hs
    dsimp only at hs
    rw [hw] at hs
    simp only [List.length_cons, List.length_nil] at hs
    rw [if_pos trivial] at hs
    have hss := Option.some.inj hs
    subst hss
    exact ⟨rfl, rfl⟩

/-- Sole survivor of the C8 witness world: 10 territories, 250 gold. -/
def exPW8 : Player :=
  { id := 7, name := "W", is_ai := false, ai_personality := none, color := "blue",
    population := 100, max_population := 10000, gold := 250, troop_ratio := ⟨1, 2⟩,
    attack_ratio := ⟨1, 2⟩, territories_controlled := 10, is_alive := true }

/-- Eliminated participant of the C8 witness world. -/
def exPL8 : Player :=
  { id := 3, name := "L", is_ai := false, ai_personality := none, color := "red",
    population := 0, max_population := 10000, gold := 0, troop_ratio := ⟨1, 2⟩,
    attack_ratio := ⟨1, 2⟩, territories_controlled := 0, is_alive := false }

/-- C8 witness world: one alive participant, one eliminated. -/
def exW8 : GameEngine :=
  { state :=
      { territories := [], players := [exPL8, exPW8],
        tick := 0, game_speed := ⟨1, 1⟩, is_paused := false, game_time_seconds := 0 },
    tick_rate_ms := 100 }

/-- C8 witness: the query fires for the sole survivor and the example score
`10 × 100 + 250 / 10 = 1025` comes out. -/
theorem check_game_over_spec_witness :
    (∃ s, exW8.check_game_over = some s) ∧
    (∀ s, exW8.check_game_over = some s → s.final_score = 1025) := by
  have h := check_game_over_spec exW8
  refine ⟨h.1.2 ⟨exPW8, by rfl⟩, ?_⟩
  intro s hs
  have h2 := h.2 s exPW8 hs (by rfl)
  rw [h2.2]
  decide

/-- An `error` result is not ok. -/
theorem aux_error_isOk {ε α} (msg : ε) : (Except.error msg : Except ε α).isOk = false := rfl

/-- An `ok` result is ok. -/
theorem aux_ok_isOk {ε α} (a : α) : (Except.ok a : Except ε α).isOk = true := rfl

/-- C6: `build_structure` fails — leaving the engine unchanged — exactly
when the participant does not own the territory, the territory already has
a structure, or gold is below the cost; on success it deducts exactly the
cost, raises `max_population` by the City bonus exactly when the type is
City, installs the structure, and any second build on the same territory
fails regardless of gold. -/
theorem build_structure_spec (e : GameEngine) (pid tid : ℕ) (bt : BuildingType)
    (t : Territory) (pl : Player)
    (ht : e.get_territory tid = .ok t) (hp : e.get_player pid = .ok pl) :
    (((e.build_structure pid tid bt).2.isOk = true) ↔
      (t.owner = some pid ∧ t.building = none ∧ bt.cost ≤ pl.gold)) ∧
    ((e.build_structure pid tid bt).2.isOk = false → (e.build_structure pid tid bt).1 = e) ∧
    ((e.build_structure pid tid bt).2.isOk = true →
      (e.build_structure pid tid bt).1.get_player pid = .ok { pl with
        gold := pl.gold - bt.cost,
        max_population := pl.max_population +
          (if bt = BuildingType.City then bt.max_population_bonus else 0) } ∧
      (e.build_structure pid tid bt).1.get_territory tid = .ok { t with building := some bt } ∧
      ∀ pid2 bt2, ((e.build_structure pid tid bt).1.build_structure pid2 tid bt2).2.isOk = false) := by
  obtain ⟨ip, hip, hiplt, hpl, hplid⟩ := aux_get_player_ok hp
  obtain ⟨it, hit, hitlt, htt, httid⟩ := aux_get_territory_ok ht
  unfold GameEngine.build_structure
  rw [ht]
  dsimp only
  by_cases ho : t.owner = some pid
  case neg =>
    rw [if_pos ho]
    refine ⟨?_, fun _ => rfl, fun hok => Bool.noConfusion hok⟩
    rw [aux_error_isOk]
    simp only [Bool.false_eq_true, false_iff]
    rintro ⟨h1, -, -⟩
    exact ho h1
  case pos =>
    rw [if_neg (fun hh => hh ho)]
    by_cases hb : t.building.isSome = true
    · rw [if_pos hb]
      refine ⟨?_, fun _ => rfl, fun hok => Bool.noConfusion hok⟩
      rw [aux_error_isOk]
      simp only [Bool.false_eq_true, false_iff]
      rintro ⟨-, h2, -⟩
      rw [h2] at hb
      exact Bool.noConfusion hb
    · rw [if_neg hb]
      rw [hp]
      dsimp only
      by_cases hg : pl.gold < bt.cost
      · rw [if_pos hg]
        refine ⟨?_, fun _ => rfl, fun hok => Bool.noConfusion hok⟩
        rw [aux_error_isOk]
        simp only [Bool.false_eq_true, false_iff]
        rintro ⟨-, -, h3⟩
        omega
      · rw [if_neg hg]
        have hms : (e.modify_player? pid (fun p =>
            if bt = BuildingType.City then
              { p with gold := p.gold - bt.cost,
                       max_population := p.max_population + bt.max_population_bonus }
            else { p with gold := p.gold - bt.cost })).isSome = true := by
          rw [aux_modify_player?_isSome, hip]; rfl
        obtain ⟨e1, he1⟩ := Option.isSome_iff_exists.1 hms
        rw [he1]
        dsimp only
        obtain ⟨i1, hi1, hi1lt, hi1id, he1p, he1t, -, -, -, -, -⟩ :=
          aux_modify_player?_some he1
        rw [hip] at hi1
        have hii : ip = i1 := Option.some.inj hi1
        subst hii
        have hidx1 : e1.territoryIdx? tid = some it := by
          unfold GameEngine.territoryIdx?
          rw [he1t]
          exact hit
        have hms2 : (e1.modify_territory? tid (fun t =>
            { t with building := some bt })).isSome = true := by
          rw [aux_modify_territory?_isSome, hidx1]; rfl
        obtain ⟨e2, he2⟩ := Option.isSome_iff_exists.1 hms2
        rw [he2]
        dsimp only
        obtain ⟨i2, hi2, hi2lt, hi2id, he2t, he2p, -, -, -, -, -⟩ :=
          aux_modify_territory?_some he2
        rw [hidx1] at hi2
        have hii2 : it = i2 := Option.some.inj hi2
        subst hii2
        refine ⟨?_, fun hok => Bool.noConfusion hok, fun _ => ?_⟩
        · rw [aux_ok_isOk]
          simp only [true_iff]
          exact ⟨ho, Option.not_isSome_iff_eq_none.1 (fun hh => hb hh), by omega⟩
        · have hfp : e1.get_player pid = .ok ((fun p =>
              if bt = BuildingType.City then
                { p with gold := p.gold - bt.cost,
                         max_population := p.max_population + bt.max_population_bonus }
              else { p with gold := p.gold - bt.cost }) (e.state.players.getD ip default)) := by
            exact aux_get_player_set_self he1p hip (by dsimp only; split <;> rfl)
          have hgp2 : e2.get_player pid = e1.get_player pid := by
            unfold GameEngine.get_player GameEngine.playerIdx?
            rw [he2p]
          have hgt2 : e2.get_territory tid =
              .ok ((fun t => ({ t with building := some bt } : Territory))
                (e1.state.territories.getD it default)) := by
            exact aux_get_territory_set_self he2t hidx1 rfl
          have hterr1 : e1.state.territories.getD it default = t := by
            rw [he1t, ← htt]
          rw [hterr1] at hgt2
          refine ⟨?_, hgt2, ?_⟩
          · rw [hgp2, hfp, ← hpl]
            dsimp only
            split
            · next hcity => subst hcity; rfl
            · next hncity =>
                simp [BuildingType.max_population_bonus]
          · intro pid2 bt2
            rw [hgt2]
            dsimp only
            by_cases ho2 : ({ t with building := some bt } : Territory).owner = some pid2
            · rw [if_neg (fun hh => hh ho2), if_pos (by rfl)]
              rfl
            · rw [if_pos ho2]
              rfl

/-- Territory of the C6 witness world. -/
def exT6 : Territory :=
  { id := 1, owner := some 10, terrain := .Plains, building := none,
    troops := 5, neighbors := [2], position := (⟨0, 1⟩, ⟨0, 1⟩) }

/-- Builder of the C6 witness world: 1200 gold. -/
def exP6 : Player :=
  { id := 10, name := "B", is_ai := false, ai_personality := none, color := "red",
    population := 100, max_population := 10000, gold := 1200, troop_ratio := ⟨1, 2⟩,
    attack_ratio := ⟨1, 2⟩, territories_controlled := 1, is_alive := true }

/-- C6 witness world. -/
def exW6 : GameEngine :=
  { state := { territories := [exT6], players := [exP6], tick := 0,
               game_speed := ⟨1, 1⟩, is_paused := false, game_time_seconds := 0 },
    tick_rate_ms := 100 }

/-- C6 witness: building a City with 1200 gold succeeds, and any second
build on the same territory fails. -/
theorem build_structure_spec_witness :
    (exW6.build_structure 10 1 BuildingType.City).2.isOk = true ∧
    ∀ bt2, ((exW6.build_structure 10 1 BuildingType.City).1.build_structure 10 1 bt2).2.isOk
      = false := by
  have h := build_structure_spec exW6 10 1 BuildingType.City exT6 exP6 (by rfl) (by rfl)
  have hok : (exW6.build_structure 10 1 BuildingType.City).2.isOk = true :=
    h.1.2 ⟨rfl, rfl, by decide⟩
  exact ⟨hok, fun bt2 => (h.2.2 hok).2.2 10 bt2⟩

/-- A territory lookup with a present index succeeds. -/
theorem aux_get_territory_of_isSome {e : GameEngine} {nid : ℕ}
    (h : (e.territoryIdx? nid).isSome = true) : ∃ nt, e.get_territory nid = .ok nt := by
  unfold GameEngine.get_territory
  cases hpi : e.territoryIdx? nid with
  | none => rw [hpi] at h; exact absurd h (by simp)
  | some i => exact ⟨_, rfl⟩

/-- Entries contributed by one neighbor to the attack-option list: target
found, foreign-owned, defender resolved. -/
theorem aux_attack_option_step_mem {e : GameEngine} {pid tid nid : ℕ}
    {cs : List (ℕ × ℕ × ℕ × ℕ)} {y : ℕ × ℕ × ℕ × ℕ}
    (h : e.attack_option_step pid tid nid = .ok cs) (hy : y ∈ cs) :
    ∃ nt, e.get_territory nid = .ok nt ∧ ∃ did, nt.owner = some did ∧ did ≠ pid ∧
      ∃ dp, e.get_player did = .ok dp ∧
        y = (tid, nid, nt.troops, dp.territories_controlled) := by
  unfold GameEngine.attack_option_step at h
  cases hgt : e.get_territory nid with
  | error msg => rw [hgt] at h; exact absurd h (fun hh => Except.noConfusion hh)
  | ok nt =>
    rw [hgt] at h
    dsimp only at h
    by_cases hown : nt.owner = some pid
    · rw [if_pos hown] at h
      have := Except.ok.inj h
      subst this
      exact absurd hy (by simp)
    · rw [if_neg hown] at h
      cases hno : nt.owner with
      | none =>
        rw [hno] at h
        have := Except.ok.inj h
        subst this
        exact absurd hy (by simp)
      | some did =>
        rw [hno] at h
        dsimp only at h
        cases hgp : e.get_player did with
        | error msg => rw [hgp] at h; exact absurd h (fun hh => Except.noConfusion hh)
        | ok dp =>
          rw [hgp] at h
          have := Except.ok.inj h
          subst this
          have hyy : y = (tid, nid, nt.troops, dp.territories_controlled) := by
            simpa using hy
          exact ⟨nt, rfl, did, hno, fun hh => hown (hno.trans (by rw [hh])), dp, hgp, hyy⟩

/-- A foreign-owned adjacent territory contributes its entry. -/
theorem aux_attack_option_step_complete {e : GameEngine} {pid tid nid : ℕ}
    {nt : Territory} {did : ℕ} {dp : Player}
    (hnt : e.get_territory nid = .ok nt) (hdid : nt.owner = some did) (hne : did ≠ pid)
    (hdp : e.get_player did = .ok dp) :
    e.attack_option_step pid tid nid =
      .ok [(tid, nid, nt.troops, dp.territories_controlled)] := by
  unfold GameEngine.attack_option_step
  rw [hnt]
  dsimp only
  rw [if_neg (fun hh => hne (Option.some.inj ((hdid.symm.trans hh))))]
  rw [hdid]
  dsimp only
  rw [hdp]

/-- The neighbor step succeeds whenever lookups resolve. -/
theorem aux_attack_option_step_ok {e : GameEngine} {pid tid nid : ℕ} {nt : Territory}
    (hnt : e.get_territory nid = .ok nt)
    (ho : ∀ did, nt.owner = some did → (e.playerIdx? did).isSome = true) :
    ∃ cs, e.attack_option_step pid tid nid = .ok cs := by
  unfold GameEngine.attack_option_step
  rw [hnt]
  dsimp only
  by_cases hown : nt.owner = some pid
  · rw [if_pos hown]
    exact ⟨[], rfl⟩
  · rw [if_neg hown]
    cases hno : nt.owner with
    | none => exact ⟨[], rfl⟩
    | some did =>
      have := ho did hno
      dsimp only
      unfold GameEngine.get_player
      cases hpi : e.playerIdx? did with
      | none => rw [hpi] at this; exact absurd this (by simp)
      | some i =>
        exact ⟨_, rfl⟩

/-- The candidate-pair property the specification asserts for the
autonomous attack attempt: source territory owned by the participant,
target adjacent and not owned by the participant — including a neutral
(ownerless) target. -/
def specAttackCandidate (e : GameEngine) (player_id a b : ℕ) : Prop :=
  ∃ t nt, e.get_territory a = .ok t ∧ t.owner = some player_id ∧ b ∈ t.neighbors ∧
    e.get_territory b = .ok nt ∧ nt.owner ≠ some player_id

/-- Source territory of the C5 counterexample world, owned by player 10. -/
def exT5a : Territory :=
  { id := 1, owner := some 10, terrain := .Plains, building := none,
    troops := 10, neighbors := [2], position := (⟨0, 1⟩, ⟨0, 1⟩) }

/-- Adjacent neutral territory of the C5 counterexample world. -/
def exT5b : Territory :=
  { id := 2, owner := none, terrain := .Plains, building := none,
    troops := 5, neighbors := [1], position := (⟨0, 1⟩, ⟨0, 1⟩) }

/-- C5 counterexample world: one owned territory with one neutral
neighbor. -/
def exW5 : GameEngine :=
  { state :=
      { territories := [exT5a, exT5b],
        players := [{ id := 10, name := "P", is_ai := true,
                      ai_personality := some .Aggressor, color := "red",
                      population := 100, max_population := 10000, gold := 0,
                      troop_ratio := ⟨1, 1⟩, attack_ratio := ⟨1, 1⟩,
                      territories_controlled := 1, is_alive := true }],
        tick := 0, game_speed := ⟨1, 1⟩, is_paused := false, game_time_seconds := 0 },
    tick_rate_ms := 100 }

/-- C5 counterexample: in `exW5`, territory 2 is an adjacent neutral
territory — a candidate pair by the claim — yet `try_attack` enumerates an
empty option list, so the enumerated candidate set is not the claimed set
and a neutral territory is never a selectable target of the autonomous
engine. -/
theorem try_attack_excludes_neutral :
    exW5.try_attack_options 10 = .ok [] ∧ specAttackCandidate exW5 10 1 2 := by
  refine ⟨by rfl, exT5a, exT5b, by rfl, rfl, by decide, by rfl, by decide⟩

/-- C5 (amended): when every neighbor identifier and every territory owner
resolves, the autonomous engine's candidate enumeration succeeds, and its
entries are exactly the pairs (territory owned by the participant, adjacent
territory owned by a different participant) with the target's stationed
troops and its owner's territory count — adjacent neutral territories are
excluded. -/
theorem try_attack_options_spec (e : GameEngine) (pid : ℕ)
    (hn : ∀ t ∈ e.state.territories, ∀ nid ∈ t.neighbors, (e.territoryIdx? nid).isSome = true)
    (ho : ∀ t ∈ e.state.territories, ∀ oid, t.owner = some oid →
      (e.playerIdx? oid).isSome = true) :
    ∃ l, e.try_attack_options pid = .ok l ∧
      ∀ a b dt dc, ((a, b, dt, dc) ∈ l ↔
        ∃ t ∈ e.state.territories, t.owner = some pid ∧ t.id = a ∧ b ∈ t.neighbors ∧
          ∃ nt, e.get_territory b = .ok nt ∧
            ∃ did, nt.owner = some did ∧ did ≠ pid ∧ dt = nt.troops ∧
              ∃ dp, e.get_player did = .ok dp ∧ dc = dp.territories_controlled) := by
  have hstepok : ∀ t ∈ e.state.territories, ∀ tid : ℕ, ∀ nid ∈ t.neighbors,
      ∃ cs, e.attack_option_step pid tid nid = .ok cs := by
    intro t htmem tid nid hnid
    obtain ⟨nt, hnt⟩ := aux_get_territory_of_isSome (hn t htmem nid hnid)
    exact aux_attack_option_step_ok hnt
      (fun did hdid => ho nt (aux_get_territory_mem hnt) did hdid)
  have houterok : ∀ p ∈ (e.state.territories.filter
        (fun t => t.owner = some pid)).map (fun t => (t.id, t.neighbors)),
      ∃ bs, (do
        let ls ← p.2.mapM (fun nid => e.attack_option_step pid p.1 nid)
        pure ls.flatten : Except String (List (ℕ × ℕ × ℕ × ℕ))) = .ok bs := by
    intro p hp
    obtain ⟨t, htf, hpt⟩ := List.mem_map.1 hp
    have htmem : t ∈ e.state.territories := (List.mem_filter.1 htf).1
    obtain ⟨css, hcss⟩ := aux_mapM_exists_ok (fun nid hnid => by
      subst hpt
      exact hstepok t htmem t.id nid hnid)
    subst hpt
    refine ⟨css.flatten, ?_⟩
    rw [hcss]
    rfl
  obtain ⟨lss, hlss⟩ := aux_mapM_exists_ok houterok
  refine ⟨lss.flatten, ?_, ?_⟩
  · unfold GameEngine.try_attack_options
    dsimp only
    rw [hlss]
    rfl
  · intro a b dt dc
    constructor
    · intro hmem
      obtain ⟨bs, hbs, hybs⟩ := List.mem_flatten.1 hmem
      obtain ⟨p, hp, hfp⟩ := (aux_mapM_ok_mem hlss bs).1 hbs
      obtain ⟨css, hcss, hbsf⟩ : ∃ css,
          p.2.mapM (fun nid => e.attack_option_step pid p.1 nid) = .ok css ∧
            bs = css.flatten := by
        cases hm : p.2.mapM (fun nid => e.attack_option_step pid p.1 nid) with
        | error msg => rw [hm] at hfp; exact absurd hfp (fun hh => Except.noConfusion hh)
        | ok css =>
          rw [hm] at hfp
          exact ⟨css, rfl, (Except.ok.inj hfp).symm⟩
      subst hbsf
      obtain ⟨cs, hcs, hycs⟩ := List.mem_flatten.1 hybs
      obtain ⟨nid, hnid, hstep⟩ := (aux_mapM_ok_mem hcss cs).1 hcs
      obtain ⟨nt, hnt, did, hdid, hne, dp, hdp, hyval⟩ :=
        aux_attack_option_step_mem hstep hycs
      obtain ⟨t, htf, hpt⟩ := List.mem_map.1 hp
      have htmem : t ∈ e.state.territories := (List.mem_filter.1 htf).1
      have htown : t.owner = some pid :=
        of_decide_eq_true (List.mem_filter.1 htf).2
      have h1 : p.1 = a := congrArg Prod.fst hyval.symm
      have h2 : nid = b := congrArg (fun z => z.2.1) hyval.symm
      have h3 : nt.troops = dt := congrArg (fun z => z.2.2.1) hyval.symm
      have h4 : dp.territories_controlled = dc := congrArg (fun z => z.2.2.2) hyval.symm
      have hp1 : p.1 = t.id := by rw [← hpt]
      have hp2 : p.2 = t.neighbors := by rw [← hpt]
      refine ⟨t, htmem, htown, hp1.symm.trans h1, ?_, nt, ?_, did, hdid, hne, h3.symm,
        dp, hdp, h4.symm⟩
      · rw [← h2]
        rw [hp2] at hnid
        exact hnid
      · rw [← h2]
        exact hnt
    · rintro ⟨t, htmem, htown, hta, hbn, nt, hnt, did, hdid, hne, hdt, dp, hdp, hdc⟩
      have htf : t ∈ e.state.territories.filter (fun t => t.owner = some pid) :=
        List.mem_filter.2 ⟨htmem, decide_eq_true htown⟩
      have hp : (t.id, t.neighbors) ∈ (e.state.territories.filter
          (fun t => t.owner = some pid)).map (fun t => (t.id, t.neighbors)) :=
        List.mem_map.2 ⟨t, htf, rfl⟩
      obtain ⟨css, hcss⟩ := aux_mapM_exists_ok (fun nid hnid =>
        hstepok t htmem t.id nid hnid)
      have hbs : (do
          let ls ← t.neighbors.mapM (fun nid => e.attack_option_step pid t.id nid)
          pure ls.flatten : Except String (List (ℕ × ℕ × ℕ × ℕ))) = .ok css.flatten := by
        rw [hcss]
        rfl
      have hbsmem : css.flatten ∈ lss :=
        (aux_mapM_ok_mem hlss css.flatten).2 ⟨(t.id, t.neighbors), hp, hbs⟩
      have hstepb : e.attack_option_step pid t.id b =
          .ok [(t.id, b, nt.troops, dp.territories_controlled)] :=
        aux_attack_option_step_complete hnt hdid hne hdp
      have hcsmem : [(t.id, b, nt.troops, dp.territories_controlled)] ∈ css :=
        (aux_mapM_ok_mem hcss _).2 ⟨b, hbn, hstepb⟩
      have hymem : ((t.id, b, nt.troops, dp.territories_controlled) : ℕ × ℕ × ℕ × ℕ)
          ∈ css.flatten :=
        List.mem_flatten.2 ⟨_, hcsmem, by simp⟩
      have hval : ((a, b, dt, dc) : ℕ × ℕ × ℕ × ℕ) =
          (t.id, b, nt.troops, dp.territories_controlled) := by
        rw [hta, hdt, hdc]
      rw [hval]
      exact List.mem_flatten.2 ⟨css.flatten, hbsmem, hymem⟩

/-- Source territory of the C5 witness world. -/
def exT5wa : Territory :=
  { id := 1, owner := some 10, terrain := .Plains, building := none,
    troops := 10, neighbors := [2], position := (⟨0, 1⟩, ⟨0, 1⟩) }

/-- Foreign-owned target of the C5 witness world. -/
def exT5wb : Territory :=
  { id := 2, owner := some 11, terrain := .Plains, building := none,
    troops := 40, neighbors := [1], position := (⟨0, 1⟩, ⟨0, 1⟩) }

/-- Defender of the C5 witness world. -/
def exP5w11 : Player :=
  { id := 11, name := "D", is_ai := false, ai_personality := none, color := "green",
    population := 100, max_population := 10000, gold := 0, troop_ratio := ⟨1, 2⟩,
    attack_ratio := ⟨1, 2⟩, territories_controlled := 1, is_alive := true }

/-- C5 witness world: an owned territory adjacent to a foreign-owned one. -/
def exW5w : GameEngine :=
  { state :=
      { territories := [exT5wa, exT5wb],
        players := [{ exP5w11 with id := 10, name := "A", color := "red" }, exP5w11],
        tick := 0, game_speed := ⟨1, 1⟩, is_paused := false, game_time_seconds := 0 },
    tick_rate_ms := 100 }

/-- C5 witness: the amended enumeration applied to the witness world
contains the foreign-owned pair. -/
theorem try_attack_options_spec_witness :
    ∃ l, exW5w.try_attack_options 10 = .ok l ∧ ((1, 2, 40, 1) : ℕ × ℕ × ℕ × ℕ) ∈ l := by
  obtain ⟨l, hl, hiff⟩ := try_attack_options_spec exW5w 10 (by decide) (by decide)
  refine ⟨l, hl, (hiff 1 2 40 1).2 ⟨exT5wa, by decide, rfl, rfl, by decide,
    exT5wb, by rfl, 11, rfl, by decide, rfl, exP5w11, by rfl, rfl⟩⟩

theorem aux_getD_map_default {α β} [Inhabited α] [Inhabited β] (f : α → β)
    (hd : f default = default) :
    ∀ (l : List α) (i : ℕ), (l.map f).getD i default = f (l.getD i default) := by
  intro l
  induction l with
  | nil => intro i; simp [List.getD, hd]
  | cons x xs ih =>
    intro i
    cases i with
    | zero => rfl
    | succ i => simp only [List.map_cons, List.getD_cons_succ]; exact ih i

theorem aux_map_eq_of_getD {α β} [Inhabited α] (g : α → β) (l l' : List α)
    (hlen : l'.length = l.length)
    (h : ∀ i, g (l'.getD i default) = g (l.getD i default)) :
    l'.map g = l.map g := by
  apply List.ext_getElem?
  intro i
  by_cases hi : i < l.length
  · have hi' : i < l'.length := by omega
    rw [List.getElem?_map, List.getElem?_map, List.getElem?_eq_getElem hi,
      List.getElem?_eq_getElem hi']
    have hh := h i
    rw [List.getD_eq_getElem?_getD, List.getD_eq_getElem?_getD,
      List.getElem?_eq_getElem hi, List.getElem?_eq_getElem hi'] at hh
    simpa using hh
  · have hi' : ¬ i < l'.length := by omega
    rw [List.getElem?_map, List.getElem?_map, List.getElem?_eq_none (by omega),
      List.getElem?_eq_none (by omega)]

/-- All player fields except `territories_controlled` agree. -/
def aux_sameExceptTC (p q : Player) : Prop :=
  q.id = p.id ∧ q.name = p.name ∧ q.is_ai = p.is_ai ∧ q.ai_personality = p.ai_personality ∧
  q.color = p.color ∧ q.population = p.population ∧ q.max_population = p.max_population ∧
  q.gold = p.gold ∧ q.troop_ratio = p.troop_ratio ∧ q.attack_ratio = p.attack_ratio ∧
  q.is_alive = p.is_alive

theorem aux_sameExceptTC_refl (p : Player) : aux_sameExceptTC p p :=
  ⟨rfl, rfl, rfl, rfl, rfl, rfl, rfl, rfl, rfl, rfl, rfl⟩

theorem aux_sameExceptTC_trans {p q r : Player}
    (h1 : aux_sameExceptTC p q) (h2 : aux_sameExceptTC q r) : aux_sameExceptTC p r :=
  ⟨h2.1.trans h1.1, h2.2.1.trans h1.2.1, h2.2.2.1.trans h1.2.2.1,
   h2.2.2.2.1.trans h1.2.2.2.1, h2.2.2.2.2.1.trans h1.2.2.2.2.1,
   h2.2.2.2.2.2.1.trans h1.2.2.2.2.2.1, h2.2.2.2.2.2.2.1.trans h1.2.2.2.2.2.2.1,
   h2.2.2.2.2.2.2.2.1.trans h1.2.2.2.2.2.2.2.1,
   h2.2.2.2.2.2.2.2.2.1.trans h1.2.2.2.2.2.2.2.2.1,
   h2.2.2.2.2.2.2.2.2.2.1.trans h1.2.2.2.2.2.2.2.2.2.1,
   h2.2.2.2.2.2.2.2.2.2.2.trans h1.2.2.2.2.2.2.2.2.2.2⟩

/-- Pointwise description of `update_territory_counts`: every slot keeps
every field other than `territories_controlled` and `is_alive`, and the new
alive flag is the old one conjoined with the recomputed count being
nonzero. -/
theorem aux_utc_players (e : GameEngine) :
    (e.update_territory_counts).state.players.length = e.state.players.length ∧
    ∀ i : ℕ,
      aux_sameExceptTC { e.state.players.getD i default with
          territories_controlled :=
            ((e.update_territory_counts).state.players.getD i default).territories_controlled,
          is_alive := ((e.update_territory_counts).state.players.getD i default).is_alive }
        ((e.update_territory_counts).state.players.getD i default) ∧
      ((e.update_territory_counts).state.players.getD i default).is_alive =
        ((e.state.players.getD i default).is_alive &&
          decide (((e.update_territory_counts).state.players.getD i default).territories_controlled
            ≠ 0)) := by
  unfold GameEngine.update_territory_counts
  dsimp only
  have hfold : ∀ (ps0 : List Player) (ts : List Territory) (ps : List Player),
      (ps.length = ps0.length ∧
       ∀ i, aux_sameExceptTC (ps0.getD i default) (ps.getD i default)) →
      ((ts.foldl (fun (ps : List Player) t =>
          match t.owner with
          | some owner_id =>
            match ps.findIdx? (fun p => p.id == owner_id) with
            | some i => ps.set i
                (let p := ps.getD i default
                 { p with territories_controlled := p.territories_controlled + 1 })
            | none => ps
          | none => ps) ps).length = ps0.length ∧
       ∀ i, aux_sameExceptTC (ps0.getD i default)
         ((ts.foldl (fun (ps : List Player) t =>
          match t.owner with
          | some owner_id =>
            match ps.findIdx? (fun p => p.id == owner_id) with
            | some i => ps.set i
                (let p := ps.getD i default
                 { p with territories_controlled := p.territories_controlled + 1 })
            | none => ps
          | none => ps) ps).getD i default)) := by
    intro ps0 ts ps hps
    refine aux_foldl_preserve (P := fun ps' : List Player =>
      ps'.length = ps0.length ∧
      ∀ i, aux_sameExceptTC (ps0.getD i default) (ps'.getD i default)) ?_ hps
    intro b t _ hb
    cases t.owner with
    | none => exact hb
    | some oid =>
      dsimp only
      cases hfi : b.findIdx? (fun p => p.id == oid) with
      | none => exact hb
      | some k =>
        have hklt := aux_findIdx?_lt_length hfi
        refine ⟨(List.length_set b k _).trans hb.1, ?_⟩
        intro i
        by_cases hik : i = k
        · subst hik
          rw [aux_getD_set_self hklt]
          refine aux_sameExceptTC_trans (hb.2 i) ?_
          exact ⟨rfl, rfl, rfl, rfl, rfl, rfl, rfl, rfl, rfl, rfl, rfl⟩
        · rw [aux_getD_set_ne (fun hh => hik hh.symm)]
          exact hb.2 i
  have hbase : ((e.state.players.map (fun p =>
      { p with territories_controlled := 0 })).length =
      (e.state.players.map (fun p => { p with territories_controlled := 0 })).length ∧
      ∀ i, aux_sameExceptTC
        ((e.state.players.map (fun p => { p with territories_controlled := 0 })).getD i default)
        ((e.state.players.map (fun p => { p with territories_controlled := 0 })).getD i default)) :=
    ⟨rfl, fun i => aux_sameExceptTC_refl _⟩
  have h2 := hfold _ e.state.territories _ hbase
  have hp1 : ∀ i, (e.state.players.map (fun p =>
      { p with territories_controlled := 0 })).getD i default =
      { e.state.players.getD i default with territories_controlled := 0 } := by
    intro i
    exact aux_getD_map_default (fun p => { p with territories_controlled := 0 })
      rfl e.state.players i
  have hp3 : ∀ (l2 : List Player) (i : ℕ),
      (l2.map (fun p => if p.territories_controlled = 0 ∧ p.is_alive then
        { p with is_alive := false } else p)).getD i default =
      (fun p => if p.territories_controlled = 0 ∧ p.is_alive then
        { p with is_alive := false } else p) (l2.getD i default) := by
    intro l2 i
    exact aux_getD_map_default (fun p => if p.territories_controlled = 0 ∧ p.is_alive then
      { p with is_alive := false } else p) rfl l2 i
  constructor
  · rw [List.length_map]
    exact h2.1.trans (List.length_map _ _)
  · intro i
    rw [hp3]
    have hrel := h2.2 i
    rw [hp1 i] at hrel
    set p2 : Player := (e.state.territories.foldl (fun (ps : List Player) t =>
      match t.owner with
      | some owner_id =>
        match ps.findIdx? (fun p => p.id == owner_id) with
        | some i => ps.set i
            (let p := ps.getD i default
             { p with territories_controlled := p.territories_controlled + 1 })
        | none => ps
      | none => ps) (e.state.players.map (fun p =>
        { p with territories_controlled := 0 }))).getD i default with hp2
    obtain ⟨hid, hname, hisai, hai, hcolor, hpop, hmax, hgold, htr, har, halive⟩ := hrel
    have halive2 : p2.is_alive = (e.state.players.getD i default).is_alive := halive
    dsimp only
    split
    · next hcond =>
        refine ⟨⟨hid, hname, hisai, hai, hcolor, hpop, hmax, hgold, htr, har, rfl⟩, ?_⟩
        dsimp only
        rw [hcond.1]
        simp
    · next hcond =>
        refine ⟨⟨hid, hname, hisai, hai, hcolor, hpop, hmax, hgold, htr, har, rfl⟩, ?_⟩
        rw [← halive2]
        cases hal : p2.is_alive with
        | false => simp
        | true =>
          have htc : p2.territories_controlled ≠ 0 := fun hh => hcond ⟨hh, hal⟩
          simp [htc]

/-- Pointwise equality of the alive flags of two engines. -/
def aux_alivePointwise (e e' : GameEngine) : Prop :=
  ∀ i : ℕ, (e'.state.players.getD i default).is_alive =
    (e.state.players.getD i default).is_alive

theorem aux_alivePointwise_refl (e : GameEngine) : aux_alivePointwise e e :=
  fun _ => rfl

theorem aux_alivePointwise_trans {e1 e2 e3 : GameEngine}
    (h1 : aux_alivePointwise e1 e2) (h2 : aux_alivePointwise e2 e3) :
    aux_alivePointwise e1 e3 :=
  fun i => (h2 i).trans (h1 i)

theorem aux_alivePointwise_of_players {e e' : GameEngine}
    (h : e'.state.players = e.state.players) : aux_alivePointwise e e' := by
  intro i
  rw [h]

/-- A player modification that keeps the alive flag keeps it pointwise. -/
theorem aux_modify_player?_alive {e e' : GameEngine} {pid : ℕ} {f : Player → Player}
    (h : e.modify_player? pid f = some e')
    (hf : ∀ p, (f p).is_alive = p.is_alive) : aux_alivePointwise e e' := by
  obtain ⟨k, hk, hklt, hkid, hps, -⟩ := aux_modify_player?_some h
  intro i
  rw [hps]
  by_cases hik : i = k
  · subst hik
    rw [aux_getD_set_self hklt]
    exact hf _
  · rw [aux_getD_set_ne (fun hh => hik hh.symm)]

/-- The resource step keeps all alive flags. -/
theorem aux_urs_step_alive (e : GameEngine) (pid : ℕ) :
    aux_alivePointwise e (e.update_resources_step pid) := by
  unfold GameEngine.update_resources_step
  split
  · exact aux_alivePointwise_refl e
  · dsimp only
    split
    · next e1 heq => exact aux_modify_player?_alive heq (fun p => rfl)
    · exact aux_alivePointwise_refl e

/-- The resource pass keeps all alive flags. -/
theorem aux_update_resources_alive (e : GameEngine) :
    aux_alivePointwise e e.update_resources := by
  unfold GameEngine.update_resources
  refine aux_foldl_preserve (P := fun e' : GameEngine => aux_alivePointwise e e') ?_
    (aux_alivePointwise_refl e)
  intro b a _ hb
  exact aux_alivePointwise_trans hb (aux_urs_step_alive b a)

/-- Attack resolution keeps all alive flags, whether it succeeds or not. -/
theorem aux_attack_alive (e : GameEngine) (a f t : ℕ) :
    aux_alivePointwise e (e.execute_attack a f t).1 := by
  unfold GameEngine.execute_attack
  split
  · exact aux_alivePointwise_refl e
  · split
    · exact aux_alivePointwise_refl e
    · split
      · exact aux_alivePointwise_refl e
      · split
        · exact aux_alivePointwise_refl e
        · split
          · exact aux_alivePointwise_refl e
          · dsimp only
            split
            · exact aux_alivePointwise_refl e
            · split
              · exact aux_alivePointwise_refl e
              · split
                · exact aux_alivePointwise_refl e
                · split
                  · exact aux_alivePointwise_refl e
                  · next e1 he1 =>
                    have h1 := aux_modify_player?_alive he1 (fun p => rfl)
                    split
                    · exact h1
                    · next e2 he2 =>
                      have h2 : aux_alivePointwise e1 e2 := by
                        split at he2
                        · exact aux_modify_player?_alive he2 (fun p => rfl)
                        · have he12 := Option.some.inj he2
                          subst he12
                          exact aux_alivePointwise_refl _
                      split
                      · exact aux_alivePointwise_trans h1 h2
                      · next e3 he3 =>
                          obtain ⟨-, -, -, -, -, hps, -, -, -, -, -⟩ :=
                            aux_modify_territory?_some he3
                          exact aux_alivePointwise_trans (aux_alivePointwise_trans h1 h2)
                            (aux_alivePointwise_of_players hps)

/-- Building keeps all alive flags, whether it succeeds or not. -/
theorem aux_build_alive (e : GameEngine) (pid tid : ℕ) (bt : BuildingType) :
    aux_alivePointwise e (e.build_structure pid tid bt).1 := by
  unfold GameEngine.build_structure
  split
  · exact aux_alivePointwise_refl e
  · split
    · exact aux_alivePointwise_refl e
    · split
      · exact aux_alivePointwise_refl e
      · split
        · exact aux_alivePointwise_refl e
        · dsimp only
          by_cases hbt : bt = BuildingType.City
          · simp only [if_pos hbt]
            split
            · exact aux_alivePointwise_refl e
            · split
              · exact aux_alivePointwise_refl e
              · next e1 he1 =>
                have h1 := aux_modify_player?_alive he1 (fun p => rfl)
                split
                · exact h1
                · next e2 he2 =>
                  obtain ⟨-, -, -, -, -, hps, -, -, -, -, -⟩ :=
                    aux_modify_territory?_some he2
                  exact aux_alivePointwise_trans h1 (aux_alivePointwise_of_players hps)
          · simp only [if_neg hbt]
            split
            · exact aux_alivePointwise_refl e
            · split
              · exact aux_alivePointwise_refl e
              · next e1 he1 =>
                have h1 := aux_modify_player?_alive he1 (fun p => rfl)
                split
                · exact h1
                · next e2 he2 =>
                  obtain ⟨-, -, -, -, -, hps, -, -, -, -, -⟩ :=
                    aux_modify_territory?_some he2
                  exact aux_alivePointwise_trans h1 (aux_alivePointwise_of_players hps)

/-- The troop-ratio setter keeps all alive flags. -/
theorem aux_set_troop_ratio_alive (e : GameEngine) (pid : ℕ) (r : Frac) :
    aux_alivePointwise e (e.set_troop_ratio pid r).1 := by
  unfold GameEngine.set_troop_ratio
  dsimp only
  split
  · next e1 he1 => exact aux_modify_player?_alive he1 (fun p => rfl)
  · exact aux_alivePointwise_refl e

/-- The attack-ratio setter keeps all alive flags. -/
theorem aux_set_attack_ratio_alive (e : GameEngine) (pid : ℕ) (r : Frac) :
    aux_alivePointwise e (e.set_attack_ratio pid r).1 := by
  unfold GameEngine.set_attack_ratio
  dsimp only
  split
  · next e1 he1 => exact aux_modify_player?_alive he1 (fun p => rfl)
  · exact aux_alivePointwise_refl e

/-- A dead participant stays dead through a tick. -/
theorem aux_tick_dead_stays (e : GameEngine) (i : ℕ)
    (h : (e.state.players.getD i default).is_alive = false) :
    ((e.tick).state.players.getD i default).is_alive = false := by
  unfold GameEngine.tick
  split
  · exact h
  · dsimp only
    set e2 : GameEngine := { e with state := { e.state with
        tick := e.state.tick + 1,
        game_time_seconds := (Frac.ofNat e.state.game_time_seconds +
          Frac.ofNat e.tick_rate_ms * e.state.game_speed / ⟨1000, 1⟩).floorNat } } with he2
    have hur := aux_update_resources_alive e2
    have h2 : ((e2.update_resources).state.players.getD i default).is_alive = false := by
      rw [hur i]
      exact h
    have h3 := ((aux_utc_players e2.update_resources).2 i).2
    rw [h3, h2]
    rfl

/-- C7: after every bookkeeping pass a participant is alive iff it was
alive before the pass and its recomputed territory count is nonzero; and no
Engine operation (tick, attack, build, ratio/speed/pause setters) ever
turns a dead participant alive again — elimination is one-way. -/
theorem elimination_one_way :
    (∀ (e : GameEngine) (i : ℕ),
      ((e.update_territory_counts).state.players.getD i default).is_alive = true ↔
        ((e.state.players.getD i default).is_alive = true ∧
         ((e.update_territory_counts).state.players.getD i default).territories_controlled
           ≠ 0)) ∧
    (∀ (e : GameEngine) (c : Command) (i : ℕ),
      (e.state.players.getD i default).is_alive = false →
      ((e.apply_command c).state.players.getD i default).is_alive = false) := by
  constructor
  · intro e i
    have h := ((aux_utc_players e).2 i).2
    rw [h]
    simp [Bool.and_eq_true]
  · intro e c i h
    cases c with
    | attack a f t =>
      show (((e.execute_attack a f t).1.state.players.getD i default).is_alive = false)
      rw [aux_attack_alive e a f t i]
      exact h
    | buildStructure p t b =>
      show (((e.build_structure p t b).1.state.players.getD i default).is_alive = false)
      rw [aux_build_alive e p t b i]
      exact h
    | setTroopRatio p r =>
      show (((e.set_troop_ratio p r).1.state.players.getD i default).is_alive = false)
      rw [aux_set_troop_ratio_alive e p r i]
      exact h
    | setAttackRatio p r =>
      show (((e.set_attack_ratio p r).1.state.players.getD i default).is_alive = false)
      rw [aux_set_attack_ratio_alive e p r i]
      exact h
    | pauseGame => exact h
    | resumeGame => exact h
    | setGameSpeed s => exact h
    | tick => exact aux_tick_dead_stays e i h

/-- C7 witness: in the C8 example world, the bookkeeping pass eliminates the
alive participant with no territory, and a tick never resurrects the dead
one. -/
theorem elimination_one_way_witness :
    ((exW8.update_territory_counts).state.players.getD 1 default).is_alive = false ∧
    ((exW8.apply_command Command.tick).state.players.getD 0 default).is_alive = false := by
  constructor
  · have ha := elimination_one_way.1 exW8 1
    have htc : ((exW8.update_territory_counts).state.players.getD 1
        default).territories_controlled = 0 := by rfl
    cases hal : ((exW8.update_territory_counts).state.players.getD 1 default).is_alive with
    | false => rfl
    | true => exact absurd htc (ha.1 hal).2
  · exact elimination_one_way.2 exW8 Command.tick 0 (by rfl)

/-- `get_player` depends only on the player list. -/
theorem aux_get_player_players_congr {e e' : GameEngine}
    (h : e'.state.players = e.state.players) (pid : ℕ) :
    e'.get_player pid = e.get_player pid := by
  unfold GameEngine.get_player GameEngine.playerIdx?
  rw [h]

/-- The growth bonus depends only on the territory list. -/
theorem aux_growth_bonus_congr {e e' : GameEngine}
    (h : e'.state.territories = e.state.territories) (pid : ℕ) :
    e'.calculate_population_growth_bonus pid = e.calculate_population_growth_bonus pid := by
  unfold GameEngine.calculate_population_growth_bonus
  rw [h]

/-- The gold bonus depends only on the territory list. -/
theorem aux_gold_bonus_congr {e e' : GameEngine}
    (h : e'.state.territories = e.state.territories) (pid : ℕ) :
    e'.calculate_gold_generation_bonus pid = e.calculate_gold_generation_bonus pid := by
  unfold GameEngine.calculate_gold_generation_bonus
  rw [h]

/-- A resource step for a different identifier leaves a player's lookup
unchanged. -/
theorem aux_urs_step_other (b : GameEngine) (qid pid : ℕ) (hne : qid ≠ pid) :
    (b.update_resources_step qid).get_player pid = b.get_player pid := by
  unfold GameEngine.update_resources_step
  split
  · rfl
  · next player hq =>
    dsimp only
    split
    · next e1 he1 =>
      obtain ⟨k, hk, hklt, hkid, hps, -⟩ := aux_modify_player?_some he1
      exact aux_get_player_set_ne hps hklt rfl (fun hh => hne (hkid.symm.trans hh))
    · rfl

/-- The resource step for a player's own identifier: the accrual formulas. -/
theorem aux_urs_step_self (b : GameEngine) (pid : ℕ) (pl : Player)
    (hp : b.get_player pid = .ok pl) :
    (b.update_resources_step pid).get_player pid = .ok { pl with
      population := min (pl.population +
        ((⟨10 * pl.territories_controlled, 1⟩ : Frac) *
          b.calculate_population_growth_bonus pid *
          (⟨b.tick_rate_ms, 1000⟩ : Frac) * b.state.game_speed).floorNat) pl.max_population,
      gold := pl.gold +
        ((⟨pl.workers, 10⟩ : Frac) * b.calculate_gold_generation_bonus pid *
          (⟨b.tick_rate_ms, 1000⟩ : Frac) * b.state.game_speed).floorNat } := by
  obtain ⟨ip, hip, hiplt, hpl, hplid⟩ := aux_get_player_ok hp
  unfold GameEngine.update_resources_step
  rw [hp]
  dsimp only
  have hms : (b.modify_player? pid (fun p =>
      { p with
        population := min (p.population +
          ((⟨10 * pl.territories_controlled, 1⟩ : Frac) *
            b.calculate_population_growth_bonus pid *
            (⟨b.tick_rate_ms, 1000⟩ : Frac) * b.state.game_speed).floorNat) p.max_population,
        gold := p.gold +
          ((⟨pl.workers, 10⟩ : Frac) * b.calculate_gold_generation_bonus pid *
            (⟨b.tick_rate_ms, 1000⟩ : Frac) * b.state.game_speed).floorNat })).isSome
      = true := by
    rw [aux_modify_player?_isSome, hip]
    rfl
  obtain ⟨e1, he1⟩ := Option.isSome_iff_exists.1 hms
  rw [he1]
  obtain ⟨i1, hi1, hi1lt, hi1id, he1p, -⟩ := aux_modify_player?_some he1
  rw [hip] at hi1
  have hii : ip = i1 := Option.some.inj hi1
  subst hii
  have := aux_get_player_set_self he1p hip rfl
  rw [this, ← hpl]

/-- A found player is an element of the player list. -/
theorem aux_get_player_mem {e : GameEngine} {pid : ℕ} {pl : Player}
    (h : e.get_player pid = .ok pl) : pl ∈ e.state.players := by
  obtain ⟨i, _, hlt, hpl, _⟩ := aux_get_player_ok h
  rw [hpl, List.getD_eq_getElem?_getD, List.getElem?_eq_getElem hlt]
  exact List.getElem_mem hlt

/-- The resource pass, seen from one alive player with a unique identifier:
exactly the accrual formulas of the loop body, computed on the pre-pass
state. -/
theorem aux_update_resources_player (e : GameEngine) (pid : ℕ) (pl : Player)
    (hnodup : (e.state.players.map Player.id).Nodup)
    (hp : e.get_player pid = .ok pl)
    (halive : pl.is_alive = true) :
    (e.update_resources).get_player pid = .ok { pl with
      population := min (pl.population +
        ((⟨10 * pl.territories_controlled, 1⟩ : Frac) *
          e.calculate_population_growth_bonus pid *
          (⟨e.tick_rate_ms, 1000⟩ : Frac) * e.state.game_speed).floorNat) pl.max_population,
      gold := pl.gold +
        ((⟨pl.workers, 10⟩ : Frac) * e.calculate_gold_generation_bonus pid *
          (⟨e.tick_rate_ms, 1000⟩ : Frac) * e.state.game_speed).floorNat } := by
  have hplmem : pl ∈ e.state.players := aux_get_player_mem hp
  have hplid : pl.id = pid := (aux_get_player_ok hp).choose_spec.2.2.2
  have hidmem : pid ∈ (e.state.players.filter (fun p => p.is_alive)).map (fun p => p.id) :=
    List.mem_map.2 ⟨pl, List.mem_filter.2 ⟨hplmem, halive⟩, hplid⟩
  have hnods : ((e.state.players.filter (fun p => p.is_alive)).map (fun p => p.id)).Nodup := by
    have hsub : (e.state.players.filter (fun p => p.is_alive)).Sublist e.state.players :=
      List.filter_sublist _
    have hsub2 := hsub.map (fun p => p.id)
    exact List.Nodup.sublist hsub2 hnodup
  obtain ⟨l1, l2, hsplit⟩ := List.append_of_mem hidmem
  have hnotin : pid ∉ l1 ∧ pid ∉ l2 := by
    rw [hsplit] at hnods
    obtain ⟨hn1, hn2, hdisj⟩ := List.nodup_append.1 hnods
    exact ⟨fun hh => hdisj hh (List.mem_cons_self _ _), (List.nodup_cons.1 hn2).1⟩
  unfold GameEngine.update_resources
  rw [hsplit, List.foldl_append, List.foldl_cons]
  have hinv1 : (l1.foldl (fun e pid => e.update_resources_step pid) e).get_player pid
        = .ok pl ∧
      (l1.foldl (fun e pid => e.update_resources_step pid) e).state.territories
        = e.state.territories ∧
      (l1.foldl (fun e pid => e.update_resources_step pid) e).state.game_speed
        = e.state.game_speed ∧
      (l1.foldl (fun e pid => e.update_resources_step pid) e).tick_rate_ms
        = e.tick_rate_ms := by
    refine aux_foldl_preserve (P := fun b : GameEngine =>
      b.get_player pid = .ok pl ∧
      b.state.territories = e.state.territories ∧
      b.state.game_speed = e.state.game_speed ∧
      b.tick_rate_ms = e.tick_rate_ms) ?_ ⟨hp, rfl, rfl, rfl⟩
    intro b a ha hb
    have hane : a ≠ pid := fun hh => hnotin.1 (hh ▸ ha)
    have hfr := aux_update_resources_step_frame b a
    exact ⟨(aux_urs_step_other b a pid hane).trans hb.1, hfr.1.trans hb.2.1,
      hfr.2.2.1.trans hb.2.2.1, hfr.2.2.2.2.2.trans hb.2.2.2⟩
  obtain ⟨hb1, hbt, hbs, hbr⟩ := hinv1
  have hself := aux_urs_step_self _ pid pl hb1
  rw [aux_growth_bonus_congr hbt, aux_gold_bonus_congr hbt, hbs, hbr] at hself
  refine aux_foldl_preserve (P := fun b : GameEngine =>
    b.get_player pid = .ok { pl with
      population := min (pl.population +
        ((⟨10 * pl.territories_controlled, 1⟩ : Frac) *
          e.calculate_population_growth_bonus pid *
          (⟨e.tick_rate_ms, 1000⟩ : Frac) * e.state.game_speed).floorNat) pl.max_population,
      gold := pl.gold +
        ((⟨pl.workers, 10⟩ : Frac) * e.calculate_gold_generation_bonus pid *
          (⟨e.tick_rate_ms, 1000⟩ : Frac) * e.state.game_speed).floorNat }) ?_ hself
  intro b a ha hb
  have hane : a ≠ pid := fun hh => hnotin.2 (hh ▸ ha)
  exact (aux_urs_step_other b a pid hane).trans hb

/-- The bookkeeping pass keeps every player's population and gold. -/
theorem aux_utc_get_player {x : GameEngine} {pid : ℕ} {target : Player}
    (h : x.get_player pid = .ok target) :
    ∃ q, (x.update_territory_counts).get_player pid = .ok q ∧
      q.population = target.population ∧ q.gold = target.gold := by
  obtain ⟨i, hi, hilt, htg, htgid⟩ := aux_get_player_ok h
  have hlen := (aux_utc_players x).1
  have hrel := fun j => (aux_utc_players x).2 j
  have hids : (x.update_territory_counts).state.players.map Player.id =
      x.state.players.map Player.id := by
    apply aux_map_eq_of_getD _ _ _ hlen
    intro j
    exact ((hrel j).1).1
  have hidx := aux_playerIdx?_congr hids pid
  refine ⟨(x.update_territory_counts).state.players.getD i default, ?_, ?_, ?_⟩
  · unfold GameEngine.get_player
    rw [hidx, hi]
  · rw [htg]
    exact ((hrel i).1).2.2.2.2.2.1
  · rw [htg]
    exact ((hrel i).1).2.2.2.2.2.2.2.1

/-- Growth bonus as the claim words it: 1 plus the average of the
per-territory growth contributions, only Forest contributing +0.2 (all
other terrain 0), and 1 when no territory is owned. -/
def specGrowthBonus (e : GameEngine) (player_id : ℕ) : Frac :=
  let acc := e.state.territories.foldl
    (fun (acc : Frac × ℕ) t =>
      if t.owner = some player_id then
        (acc.1 + (match t.terrain with
          | TerrainType.Forests => (⟨2, 10⟩ : Frac)
          | _ => (⟨0, 1⟩ : Frac)), acc.2 + 1)
      else acc)
    ((⟨0, 1⟩ : Frac), 0)
  if acc.2 > 0 then (⟨1, 1⟩ : Frac) + acc.1 / Frac.ofNat acc.2 else (⟨1, 1⟩ : Frac)

/-- C3 counterexample world: one alive participant owning a single Plains
territory, 1000 ms tick period, speed 1, all population as workers. -/
def exW3 : GameEngine :=
  { state :=
      { territories := [{ id := 1, owner := some 10, terrain := .Plains, building := none,
                          troops := 0, neighbors := [2], position := (⟨0, 1⟩, ⟨0, 1⟩) }],
        players := [{ id := 10, name := "P", is_ai := false, ai_personality := none,
                      color := "red", population := 1000, max_population := 10000,
                      gold := 0, troop_ratio := ⟨0, 1⟩, attack_ratio := ⟨0, 1⟩,
                      territories_controlled := 1, is_alive := true }],
        tick := 0, game_speed := ⟨1, 1⟩, is_paused := false, game_time_seconds := 0 },
    tick_rate_ms := 1000 }

/-- C3 counterexample: in `exW3` the participant owns one Plains territory
and the claim's growth bonus is 1 (Plains contributes 0), predicting
population 1000 + ⌊10·1·1·1⌋ = 1010 after the tick; the code's accumulator
starts at 1 and sums the full multiplier 1.0, giving bonus (1+1)/1 = 2 and
actual population 1020. -/
theorem update_resources_bonus_counterexample :
    ((exW3.tick).state.players.getD 0 default).population = 1020 ∧
    min (1000 + ((⟨10 * 1, 1⟩ : Frac) * specGrowthBonus exW3 10 *
      (⟨exW3.tick_rate_ms, 1000⟩ : Frac) * exW3.state.game_speed).floorNat) 10000 = 1010 ∧
    (1020 : ℕ) ≠ 1010 := by
  refine ⟨by rfl, by decide, by decide⟩

/-- C3 (amended): on every unpaused tick, each alive participant (with a
unique identifier) gains population
`⌊10 · territories_controlled · growth_bonus · dt⌋` capped at
`max_population` and gains gold `⌊(workers/10) · gold_bonus · dt⌋`, with
`dt = tick_period_seconds · speed`, where the bonus ratios are the code's
baseline-inflated averages: growth_bonus = (1 + Σ terrain growth
multipliers (Forest 1.2, else 1.0)) / territory_count and gold_bonus =
(1 + Σ terrain gold multiplier × structure gold multiplier (Plains 1.2,
Gold-Mine 1.5, multiplicative, else 1)) / territory_count; both ratios are
1.0 when the participant owns no territory. -/
theorem tick_resource_accrual :
    (∀ (e : GameEngine) (pid : ℕ) (pl : Player),
      (e.state.players.map Player.id).Nodup →
      e.get_player pid = .ok pl →
      pl.is_alive = true →
      e.state.is_paused = false →
      ∃ pl', (e.tick).get_player pid = .ok pl' ∧
        pl'.population = min (pl.population +
          ((⟨10 * pl.territories_controlled, 1⟩ : Frac) *
            e.calculate_population_growth_bonus pid *
            (⟨e.tick_rate_ms, 1000⟩ : Frac) * e.state.game_speed).floorNat)
          pl.max_population ∧
        pl'.gold = pl.gold +
          ((⟨pl.workers, 10⟩ : Frac) * e.calculate_gold_generation_bonus pid *
            (⟨e.tick_rate_ms, 1000⟩ : Frac) * e.state.game_speed).floorNat) ∧
    (∀ (e : GameEngine) (pid : ℕ),
      (∀ t ∈ e.state.territories, ¬ t.owner = some pid) →
      e.calculate_population_growth_bonus pid = ⟨1, 1⟩ ∧
      e.calculate_gold_generation_bonus pid = ⟨1, 1⟩) := by
  constructor
  · intro e pid pl hnodup hp halive hpaused
    unfold GameEngine.tick
    simp only [hpaused, Bool.false_eq_true, if_false]
    set e2 : GameEngine := { e with state := { e.state with
        tick := e.state.tick + 1,
        is_paused := false,
        game_time_seconds := (Frac.ofNat e.state.game_time_seconds +
          Frac.ofNat e.tick_rate_ms * e.state.game_speed / ⟨1000, 1⟩).floorNat } } with he2
    have hp2 : e2.get_player pid = .ok pl :=
      (aux_get_player_players_congr (rfl) pid).trans hp
    have hnodup2 : (e2.state.players.map Player.id).Nodup := hnodup
    have hur := aux_update_resources_player e2 pid pl hnodup2 hp2 halive
    rw [aux_growth_bonus_congr (show e2.state.territories = e.state.territories from rfl),
      aux_gold_bonus_congr (show e2.state.territories = e.state.territories from rfl),
      show e2.state.game_speed = e.state.game_speed from rfl,
      show e2.tick_rate_ms = e.tick_rate_ms from rfl] at hur
    obtain ⟨q, hq, hqpop, hqgold⟩ := aux_utc_get_player hur
    exact ⟨q, hq, hqpop, hqgold⟩
  · intro e pid hno
    constructor
    · unfold GameEngine.calculate_population_growth_bonus
      have hacc : e.state.territories.foldl
          (fun (acc : Frac × ℕ) t =>
            if t.owner = some pid then
              (acc.1 + t.terrain.population_growth_multiplier, acc.2 + 1)
            else acc) ((⟨1, 1⟩ : Frac), 0) = ((⟨1, 1⟩ : Frac), 0) := by
        refine aux_foldl_preserve (P := fun acc : Frac × ℕ =>
          acc = ((⟨1, 1⟩ : Frac), 0)) ?_ rfl
        intro b t ht hb
        rw [if_neg (hno t ht)]
        exact hb
      rw [hacc]
      rfl
    · unfold GameEngine.calculate_gold_generation_bonus
      have hacc : e.state.territories.foldl
          (fun (acc : Frac × ℕ) t =>
            if t.owner = some pid then
              (acc.1 + (match t.building with
                | some building => t.terrain.gold_multiplier * building.gold_multiplier
                | none => t.terrain.gold_multiplier), acc.2 + 1)
            else acc) ((⟨1, 1⟩ : Frac), 0) = ((⟨1, 1⟩ : Frac), 0) := by
        refine aux_foldl_preserve (P := fun acc : Frac × ℕ =>
          acc = ((⟨1, 1⟩ : Frac), 0)) ?_ rfl
        intro b t ht hb
        rw [if_neg (hno t ht)]
        exact hb
      rw [hacc]
      rfl

/-- C3 witness: the amended accrual evaluated on the counterexample world:
population 1000 → 1020 (capped growth 20) and gold 0 → 220. -/
theorem tick_resource_accrual_witness :
    ∃ pl', (exW3.tick).get_player 10 = .ok pl' ∧
      pl'.population = 1020 ∧ pl'.gold = 220 := by
  obtain ⟨pl', hpl', hpop, hgold⟩ := tick_resource_accrual.1 exW3 10
    { id := 10, name := "P", is_ai := false, ai_personality := none,
      color := "red", population := 1000, max_population := 10000,
      gold := 0, troop_ratio := ⟨0, 1⟩, attack_ratio := ⟨0, 1⟩,
      territories_controlled := 1, is_alive := true }
    (by decide) (by rfl) (by rfl) (by rfl)
  exact ⟨pl', hpl', hpop.trans (by decide), hgold.trans (by decide)⟩

/-- Combat calculation succeeds whenever the defender territory resolves. -/
theorem aux_calculate_combat_ok {e : GameEngine} {tid : ℕ} {tt : Territory}
    (ht : e.get_territory tid = .ok tt) (a d : ℕ) :
    ∃ r, e.calculate_combat a d tid = .ok r := by
  unfold GameEngine.calculate_combat
  rw [ht]
  exact ⟨_, rfl⟩

/-- Every territory owner is a registered participant. -/
def WFowners (e : GameEngine) : Prop :=
  ∀ t ∈ e.state.territories, ∀ oid, t.owner = some oid → (e.playerIdx? oid).isSome = true

/-- The validity condition of an attack command, as the specification lists
it: both territories and the attacker resolve, the attacker owns the
source, the target is adjacent and not the attacker's own, and the
committed force `⌊troops × attack_ratio⌋` is at least 1. -/
def attack_valid (e : GameEngine) (a f t : ℕ) : Prop :=
  ∃ ft tt atk, e.get_territory f = .ok ft ∧ e.get_territory t = .ok tt ∧
    e.get_player a = .ok atk ∧ ft.owner = some a ∧ t ∈ ft.neighbors ∧
    tt.owner ≠ some a ∧ 1 ≤ (Frac.ofNat atk.troops * atk.attack_ratio).floorNat

/-- C2: when every territory owner is registered, `execute_attack` returns
an error — and leaves the whole world state unchanged — exactly when the
attacker does not own the source, the target is not adjacent, the attacker
owns the target, the committed force is 0, or an identifier is unknown; in
every other case it succeeds. -/
theorem execute_attack_spec (e : GameEngine) (a f t : ℕ) (hwf : WFowners e) :
    (((e.execute_attack a f t).2.isOk = true) ↔ attack_valid e a f t) ∧
    ((e.execute_attack a f t).2.isOk = false → (e.execute_attack a f t).1 = e) := by
  unfold GameEngine.execute_attack
  cases hgf : e.get_territory f with
  | error msg =>
    dsimp only
    refine ⟨?_, fun _ => rfl⟩
    rw [aux_error_isOk]
    simp only [Bool.false_eq_true, false_iff]
    rintro ⟨ft, -, -, hft, -⟩
    rw [hgf] at hft
    exact Except.noConfusion hft
  | ok ft =>
    dsimp only
    by_cases hfo : ft.owner = some a
    case neg =>
      rw [if_pos (fun hh => hfo hh)]
      refine ⟨?_, fun _ => rfl⟩
      rw [aux_error_isOk]
      simp only [Bool.false_eq_true, false_iff]
      rintro ⟨ft2, -, -, hft2, -, -, hown, -⟩
      rw [hgf] at hft2
      have := Except.ok.inj hft2
      subst this
      exact hfo hown
    case pos =>
      rw [if_neg (fun hh => hh hfo)]
      by_cases htn : t ∈ ft.neighbors
      case neg =>
        rw [if_pos htn]
        refine ⟨?_, fun _ => rfl⟩
        rw [aux_error_isOk]
        simp only [Bool.false_eq_true, false_iff]
        rintro ⟨ft2, -, -, hft2, -, -, -, hmem, -⟩
        rw [hgf] at hft2
        have := Except.ok.inj hft2
        subst this
        exact htn hmem
      case pos =>
        rw [if_neg (fun hh => hh htn)]
        cases hgt : e.get_territory t with
        | error msg =>
          dsimp only
          refine ⟨?_, fun _ => rfl⟩
          rw [aux_error_isOk]
          simp only [Bool.false_eq_true, false_iff]
          rintro ⟨-, tt2, -, -, htt2, -⟩
          rw [hgt] at htt2
          exact Except.noConfusion htt2
        | ok tt =>
          dsimp only
          by_cases hto : tt.owner = some a
          case pos =>
            rw [if_pos hto]
            refine ⟨?_, fun _ => rfl⟩
            rw [aux_error_isOk]
            simp only [Bool.false_eq_true, false_iff]
            rintro ⟨-, tt2, -, -, htt2, -, -, -, hown2, -⟩
            rw [hgt] at htt2
            have := Except.ok.inj htt2
            subst this
            exact hown2 hto
          case neg =>
            rw [if_neg hto]
            cases hga : e.get_player a with
            | error msg =>
              refine ⟨?_, fun _ => rfl⟩
              rw [aux_error_isOk]
              simp only [Bool.false_eq_true, false_iff]
              rintro ⟨-, -, atk2, -, -, hatk2, -⟩
              rw [hga] at hatk2
              exact Except.noConfusion hatk2
            | ok atk =>
              dsimp only
              by_cases hn0 : (Frac.ofNat atk.troops * atk.attack_ratio).floorNat = 0
              case pos =>
                rw [if_pos hn0]
                refine ⟨?_, fun _ => rfl⟩
                rw [aux_error_isOk]
                simp only [Bool.false_eq_true, false_iff]
                rintro ⟨-, -, atk2, -, -, hatk2, -, -, -, hgt1⟩
                rw [hga] at hatk2
                have := Except.ok.inj hatk2
                subst this
                omega
              case neg =>
                rw [if_neg hn0]
                obtain ⟨r, hcc⟩ := aux_calculate_combat_ok hgt
                  ((Frac.ofNat atk.troops * atk.attack_ratio).floorNat) tt.troops
                obtain ⟨al, dl, cq⟩ := r
                rw [hcc]
                dsimp only
                obtain ⟨ipa, hipa, -, -, -⟩ := aux_get_player_ok hga
                have hm1 : (e.modify_player? a (fun p =>
                    { p with population := p.population - al })).isSome = true := by
                  rw [aux_modify_player?_isSome, hipa]
                  rfl
                obtain ⟨e1, he1⟩ := Option.isSome_iff_exists.1 hm1
                rw [he1]
                dsimp only
                obtain ⟨i1, -, hi1lt, hi1id, he1p, he1t, -⟩ := aux_modify_player?_some he1
                have hids1 : e1.state.players.map Player.id = e.state.players.map Player.id := by
                  rw [he1p]
                  exact aux_player_ids_set hi1lt rfl
                have hstep2 : ∃ e2, (match tt.owner with
                    | some did => e1.modify_player? did
                        (fun p => { p with population := p.population - dl })
                    | none => some e1) = some e2 ∧
                    e2.state.players.map Player.id = e.state.players.map Player.id ∧
                    e2.state.territories = e.state.territories := by
                  cases hov : tt.owner with
                  | none => exact ⟨e1, rfl, hids1, he1t⟩
                  | some did =>
                    have hwfd := hwf tt (aux_get_territory_mem hgt) did hov
                    have : (e1.playerIdx? did).isSome = true := by
                      rw [aux_playerIdx?_congr hids1 did]
                      exact hwfd
                    have hm2 : (e1.modify_player? did (fun p =>
                        { p with population := p.population - dl })).isSome = true := by
                      rw [aux_modify_player?_isSome]
                      exact this
                    obtain ⟨e2, he2⟩ := Option.isSome_iff_exists.1 hm2
                    obtain ⟨i2, -, hi2lt, -, he2p, he2t, -⟩ := aux_modify_player?_some he2
                    refine ⟨e2, he2, ?_, he2t.trans he1t⟩
                    rw [he2p]
                    refine Eq.trans (aux_player_ids_set hi2lt ?_) hids1
                    rfl
                obtain ⟨e2, he2, hids2, he2t⟩ := hstep2
                rw [he2]
                dsimp only
                have hit : (e2.territoryIdx? t).isSome = true := by
                  unfold GameEngine.territoryIdx?
                  rw [he2t]
                  obtain ⟨it, hit0, -⟩ := aux_get_territory_ok hgt
                  unfold GameEngine.territoryIdx? at hit0
                  rw [hit0]
                  rfl
                have hm3 : (e2.modify_territory? t (fun tx =>
                    if cq = true then
                      { tx with owner := some a,
                                troops := (Frac.ofNat atk.troops * atk.attack_ratio).floorNat
                                  - al }
                    else { tx with troops := tt.troops - dl })).isSome = true := by
                  rw [aux_modify_territory?_isSome]
                  exact hit
                obtain ⟨e3, he3⟩ := Option.isSome_iff_exists.1 hm3
                rw [he3]
                dsimp only
                refine ⟨?_, fun hok => Bool.noConfusion hok⟩
                rw [aux_ok_isOk]
                simp only [true_iff]
                exact ⟨ft, tt, atk, hgf, hgt, hga, hfo, htn, hto, by omega⟩

/-- Source territory of the C2 witness world. -/
def exT2a : Territory :=
  { id := 1, owner := some 10, terrain := .Plains, building := none,
    troops := 0, neighbors := [2], position := (⟨0, 1⟩, ⟨0, 1⟩) }

/-- Target territory of the C2 witness world. -/
def exT2b : Territory :=
  { id := 2, owner := some 11, terrain := .Plains, building := none,
    troops := 40, neighbors := [1], position := (⟨0, 1⟩, ⟨0, 1⟩) }

/-- Attacker of the C2 witness world. -/
def exP2a : Player :=
  { id := 10, name := "A", is_ai := false, ai_personality := none, color := "red",
    population := 1000, max_population := 10000, gold := 0, troop_ratio := ⟨1, 1⟩,
    attack_ratio := ⟨1, 1⟩, territories_controlled := 1, is_alive := true }

/-- Defender of the C2 witness world. -/
def exP2b : Player :=
  { id := 11, name := "D", is_ai := false, ai_personality := none, color := "green",
    population := 500, max_population := 10000, gold := 0, troop_ratio := ⟨1, 1⟩,
    attack_ratio := ⟨1, 1⟩, territories_controlled := 1, is_alive := true }

/-- C2 witness world. -/
def exW2 : GameEngine :=
  { state :=
      { territories := [exT2a, exT2b], players := [exP2a, exP2b],
        tick := 0, game_speed := ⟨1, 1⟩, is_paused := false, game_time_seconds := 0 },
    tick_rate_ms := 100 }

/-- C2 witness: a valid attack succeeds; attacking from a territory the
attacker does not own fails and leaves the world unchanged. -/
theorem execute_attack_spec_witness :
    ((exW2.execute_attack 10 1 2).2.isOk = true) ∧
    ((exW2.execute_attack 10 2 1).2.isOk = false) ∧
    (exW2.execute_attack 10 2 1).1 = exW2 := by
  have h1 := execute_attack_spec exW2 10 1 2 (by unfold WFowners; decide)
  have h2 := execute_attack_spec exW2 10 2 1 (by unfold WFowners; decide)
  refine ⟨?_, by decide, h2.2 (by decide)⟩
  exact h1.1.2 ⟨exT2a, exT2b, exP2a, by rfl, by rfl, by rfl, by rfl, by decide,
    by decide, by decide⟩

/-- All player fields except `population` agree. -/
def aux_samePlayerExceptPop (p q : Player) : Prop :=
  q.id = p.id ∧ q.name = p.name ∧ q.is_ai = p.is_ai ∧ q.ai_personality = p.ai_personality ∧
  q.color = p.color ∧ q.max_population = p.max_population ∧ q.gold = p.gold ∧
  q.troop_ratio = p.troop_ratio ∧ q.attack_ratio = p.attack_ratio ∧
  q.territories_controlled = p.territories_controlled ∧ q.is_alive = p.is_alive

theorem aux_samePlayerExceptPop_refl (p : Player) : aux_samePlayerExceptPop p p :=
  ⟨rfl, rfl, rfl, rfl, rfl, rfl, rfl, rfl, rfl, rfl, rfl⟩

theorem aux_samePlayerExceptPop_trans {p q r : Player}
    (h1 : aux_samePlayerExceptPop p q) (h2 : aux_samePlayerExceptPop q r) :
    aux_samePlayerExceptPop p r :=
  ⟨h2.1.trans h1.1, h2.2.1.trans h1.2.1, h2.2.2.1.trans h1.2.2.1,
   h2.2.2.2.1.trans h1.2.2.2.1, h2.2.2.2.2.1.trans h1.2.2.2.2.1,
   h2.2.2.2.2.2.1.trans h1.2.2.2.2.2.1, h2.2.2.2.2.2.2.1.trans h1.2.2.2.2.2.2.1,
   h2.2.2.2.2.2.2.2.1.trans h1.2.2.2.2.2.2.2.1,
   h2.2.2.2.2.2.2.2.2.1.trans h1.2.2.2.2.2.2.2.2.1,
   h2.2.2.2.2.2.2.2.2.2.1.trans h1.2.2.2.2.2.2.2.2.2.1,
   h2.2.2.2.2.2.2.2.2.2.2.trans h1.2.2.2.2.2.2.2.2.2.2⟩

/-- A `modify_player?` whose update only changes the population: pointwise,
every other field is kept, and slots whose identifier differs from the
modified one are untouched entirely. -/
theorem aux_modify_player?_pop_frame {e e' : GameEngine} {pid : ℕ} {f : Player → Player}
    (h : e.modify_player? pid f = some e')
    (hf : ∀ p, aux_samePlayerExceptPop p (f p)) :
    e'.state.players.length = e.state.players.length ∧
    (∀ k, aux_samePlayerExceptPop (e.state.players.getD k default)
      (e'.state.players.getD k default)) ∧
    (∀ k, (e.state.players.getD k default).id ≠ pid →
      e'.state.players.getD k default = e.state.players.getD k default) := by
  obtain ⟨i, hi, hilt, hiid, hps, -⟩ := aux_modify_player?_some h
  refine ⟨by rw [hps]; exact List.length_set _ _ _, ?_, ?_⟩
  · intro k
    rw [hps]
    by_cases hik : k = i
    · subst hik
      rw [aux_getD_set_self hilt]
      exact hf _
    · rw [aux_getD_set_ne (fun hh => hik hh.symm)]
      exact aux_samePlayerExceptPop_refl _
  · intro k hk
    rw [hps]
    have hik : k ≠ i := fun hh => hk (hh ▸ hiid)
    rw [aux_getD_set_ne (fun hh => hik hh.symm)]

/-- C10: a successful attack changes only the target territory's owner and
troops, the attacker's population and — when the target had an owner — that
owner's population; the global fields, the source territory, every other
territory, and every other player field (gold, ratios, counts, flags) are
untouched. -/
theorem execute_attack_frame (e e' : GameEngine) (a f t : ℕ) (r : CombatResult)
    (h : e.execute_attack a f t = (e', .ok r)) :
    e'.tick_rate_ms = e.tick_rate_ms ∧
    e'.state.tick = e.state.tick ∧
    e'.state.game_speed = e.state.game_speed ∧
    e'.state.is_paused = e.state.is_paused ∧
    e'.state.game_time_seconds = e.state.game_time_seconds ∧
    (∃ j, e.territoryIdx? t = some j ∧ e.territoryIdx? f ≠ some j ∧
      (∀ k, k ≠ j →
        e'.state.territories.getD k default = e.state.territories.getD k default) ∧
      (e'.state.territories.getD j default).id = (e.state.territories.getD j default).id ∧
      (e'.state.territories.getD j default).terrain
        = (e.state.territories.getD j default).terrain ∧
      (e'.state.territories.getD j default).building
        = (e.state.territories.getD j default).building ∧
      (e'.state.territories.getD j default).neighbors
        = (e.state.territories.getD j default).neighbors ∧
      (e'.state.territories.getD j default).position
        = (e.state.territories.getD j default).position) ∧
    e'.state.players.length = e.state.players.length ∧
    (∀ k, aux_samePlayerExceptPop (e.state.players.getD k default)
      (e'.state.players.getD k default)) ∧
    (∀ k, (e.state.players.getD k default).id ≠ a →
      some (e.state.players.getD k default).id ≠ r.defender_id →
      (e'.state.players.getD k default).population
        = (e.state.players.getD k default).population) := by
  unfold GameEngine.execute_attack at h
  cases hgf : e.get_territory f with
  | error msg =>
    rw [hgf] at h
    exact absurd (congrArg Prod.snd h) (fun hh => Except.noConfusion hh)
  | ok ft =>
    rw [hgf] at h
    dsimp only at h
    by_cases hfo : ft.owner = some a
    case neg =>
      rw [if_pos (fun hh => hfo hh)] at h
      exact absurd (congrArg Prod.snd h) (fun hh => Except.noConfusion hh)
    case pos =>
      rw [if_neg (fun hh => hh hfo)] at h
      by_cases htn : t ∈ ft.neighbors
      case neg =>
        rw [if_pos htn] at h
        exact absurd (congrArg Prod.snd h) (fun hh => Except.noConfusion hh)
      case pos =>
        rw [if_neg (fun hh => hh htn)] at h
        cases hgt : e.get_territory t with
        | error msg =>
          rw [hgt] at h
          exact absurd (congrArg Prod.snd h) (fun hh => Except.noConfusion hh)
        | ok tt =>
          rw [hgt] at h
          dsimp only at h
          by_cases hto : tt.owner = some a
          case pos =>
            rw [if_pos hto] at h
            exact absurd (congrArg Prod.snd h) (fun hh => Except.noConfusion hh)
          case neg =>
            rw [if_neg hto] at h
            cases hga : e.get_player a with
            | error msg =>
              rw [hga] at h
              exact absurd (congrArg Prod.snd h) (fun hh => Except.noConfusion hh)
            | ok atk =>
              rw [hga] at h
              dsimp only at h
              by_cases hn0 : (Frac.ofNat atk.troops * atk.attack_ratio).floorNat = 0
              case pos =>
                rw [if_pos hn0] at h
                exact absurd (congrArg Prod.snd h) (fun hh => Except.noConfusion hh)
              case neg =>
                rw [if_neg hn0] at h
                cases hcc : e.calculate_combat
                    ((Frac.ofNat atk.troops * atk.attack_ratio).floorNat) tt.troops t with
                | error msg =>
                  rw [hcc] at h
                  exact absurd (congrArg Prod.snd h) (fun hh => Except.noConfusion hh)
                | ok rr =>
                  obtain ⟨al, dl, cq⟩ := rr
                  rw [hcc] at h
                  dsimp only at h
                  cases hm1 : e.modify_player? a
                      (fun p => { p with population := p.population - al }) with
                  | none =>
                    rw [hm1] at h
                    exact absurd (congrArg Prod.snd h) (fun hh => Except.noConfusion hh)
                  | some e1 =>
                    rw [hm1] at h
                    dsimp only at h
                    have hfr1 := aux_modify_player?_pop_frame hm1
                      (fun p => ⟨rfl, rfl, rfl, rfl, rfl, rfl, rfl, rfl, rfl, rfl, rfl⟩)
                    obtain ⟨-, -, -, -, -, he1t, he1tick, he1sp, he1pa, he1ti, he1rate⟩ :=
                      aux_modify_player?_some hm1
                    cases hsm : (match tt.owner with
                        | some did => e1.modify_player? did
                            (fun p => { p with population := p.population - dl })
                        | none => some e1) with
                    | none =>
                      rw [hsm] at h
                      exact absurd (congrArg Prod.snd h) (fun hh => Except.noConfusion hh)
                    | some e2 =>
                      rw [hsm] at h
                      dsimp only at h
                      have hq2 : e2.state.players.length = e1.state.players.length ∧
                          (∀ k, aux_samePlayerExceptPop (e1.state.players.getD k default)
                            (e2.state.players.getD k default)) ∧
                          (∀ k, some (e1.state.players.getD k default).id ≠ tt.owner →
                            e2.state.players.getD k default
                              = e1.state.players.getD k default) ∧
                          e2.state.territories = e1.state.territories ∧
                          e2.state.tick = e1.state.tick ∧
                          e2.state.game_speed = e1.state.game_speed ∧
                          e2.state.is_paused = e1.state.is_paused ∧
                          e2.state.game_time_seconds = e1.state.game_time_seconds ∧
                          e2.tick_rate_ms = e1.tick_rate_ms := by
                        cases hov : tt.owner with
                        | none =>
                          rw [hov] at hsm
                          have he12 := Option.some.inj hsm
                          subst he12
                          exact ⟨rfl, fun k => aux_samePlayerExceptPop_refl _,
                            fun k _ => rfl, rfl, rfl, rfl, rfl, rfl, rfl⟩
                        | some did =>
                          rw [hov] at hsm
                          have hfr2 := aux_modify_player?_pop_frame hsm
                            (fun p => ⟨rfl, rfl, rfl, rfl, rfl, rfl, rfl, rfl, rfl, rfl, rfl⟩)
                          obtain ⟨-, -, -, -, -, he2terr, he2tick, he2sp, he2pa, he2ti,
                            he2rate⟩ := aux_modify_player?_some hsm
                          exact ⟨hfr2.1, hfr2.2.1,
                            fun k hk => hfr2.2.2 k (fun hh => hk (congrArg some hh)),
                            he2terr, he2tick, he2sp, he2pa, he2ti, he2rate⟩
                      obtain ⟨hlen2, hrel2, huntouched2, he2t, he2tick, he2sp, he2pa,
                        he2ti, he2rate⟩ := hq2
                      cases hm3 : e2.modify_territory? t (fun tx =>
                          if cq = true then
                            { tx with
                                owner := some a,
                                troops := (Frac.ofNat atk.troops * atk.attack_ratio).floorNat
                                  - al }
                          else { tx with troops := tt.troops - dl }) with
                      | none =>
                        rw [hm3] at h
                        exact absurd (congrArg Prod.snd h) (fun hh => Except.noConfusion hh)
                      | some e3 =>
                        rw [hm3] at h
                        dsimp only at h
                        have he3 : e3 = e' := congrArg Prod.fst h
                        have hrr : r = { attacker_id := a,
                                         defender_id := tt.owner,
                                         from_territory := f,
                                         to_territory := t,
                                         attacker_troops_committed :=
                                           (Frac.ofNat atk.troops * atk.attack_ratio).floorNat,
                                         defender_troops := tt.troops,
                                         attacker_losses := al,
                                         defender_losses := dl,
                                         territory_conquered := cq } :=
                          (Except.ok.inj (congrArg Prod.snd h)).symm
                        subst he3
                        subst hrr
                        obtain ⟨j, hj, hjlt, hjid, he3t, he3p, he3tick, he3sp, he3pa,
                          he3ti, he3rate⟩ := aux_modify_territory?_some hm3
                        have hteq : e2.state.territories = e.state.territories :=
                          he2t.trans he1t
                        refine ⟨he3rate.trans (he2rate.trans he1rate),
                          he3tick.trans (he2tick.trans he1tick),
                          he3sp.trans (he2sp.trans he1sp),
                          he3pa.trans (he2pa.trans he1pa),
                          he3ti.trans (he2ti.trans he1ti), ?_, ?_, ?_, ?_⟩
                        · -- territory frame
                          have hj0 : e.territoryIdx? t = some j := by
                            unfold GameEngine.territoryIdx? at hj ⊢
                            rw [hteq] at hj
                            exact hj
                          obtain ⟨jt, hjt, hjtlt, httval, -⟩ := aux_get_territory_ok hgt
                          have hjjt : jt = j := Option.some.inj (hjt.symm.trans hj0)
                          rw [hjjt] at httval
                          obtain ⟨jf, hjf, hjflt, hftval, -⟩ := aux_get_territory_ok hgf
                          refine ⟨j, hj0, ?_, ?_, ?_⟩
                          · intro hfj
                            have hjfj : jf = j := Option.some.inj (hjf.symm.trans hfj)
                            have hfteq : ft = tt := by
                              rw [hftval, httval, hjfj]
                            rw [hfteq] at hfo
                            exact hto hfo
                          · intro k hk
                            rw [he3t, aux_getD_set_ne (fun hh => hk hh.symm), hteq]
                          · rw [he3t, aux_getD_set_self hjlt, hteq]
                            have hg : ∀ x : Territory,
                                ((if cq = true then
                                  { x with
                                      owner := some a,
                                      troops := (Frac.ofNat atk.troops *
                                        atk.attack_ratio).floorNat - al }
                                 else { x with troops := tt.troops - dl }) : Territory).id
                                  = x.id ∧
                                ((if cq = true then
                                  { x with
                                      owner := some a,
                                      troops := (Frac.ofNat atk.troops *
                                        atk.attack_ratio).floorNat - al }
                                 else { x with troops := tt.troops - dl }) : Territory).terrain
                                  = x.terrain ∧
                                ((if cq = true then
                                  { x with
                                      owner := some a,
                                      troops := (Frac.ofNat atk.troops *
                                        atk.attack_ratio).floorNat - al }
                                 else { x with troops := tt.troops - dl }) : Territory).building
                                  = x.building ∧
                                ((if cq = true then
                                  { x with
                                      owner := some a,
                                      troops := (Frac.ofNat atk.troops *
                                        atk.attack_ratio).floorNat - al }
                                 else { x with troops := tt.troops - dl }) : Territory).neighbors
                                  = x.neighbors ∧
                                ((if cq = true then
                                  { x with
                                      owner := some a,
                                      troops := (Frac.ofNat atk.troops *
                                        atk.attack_ratio).floorNat - al }
                                 else { x with troops := tt.troops - dl }) : Territory).position
                                  = x.position := by
                              intro x
                              split <;> exact ⟨rfl, rfl, rfl, rfl, rfl⟩
                            exact hg _
                        · -- player list length
                          rw [he3p]
                          exact hlen2.trans hfr1.1
                        · -- per-slot non-population fields
                          intro k
                          rw [he3p]
                          exact aux_samePlayerExceptPop_trans (hfr1.2.1 k) (hrel2 k)
                        · -- populations untouched away from attacker and defender owner
                          intro k hka hkd
                          have h1k : e1.state.players.getD k default
                              = e.state.players.getD k default := hfr1.2.2 k hka
                          have h2k : e2.state.players.getD k default
                              = e1.state.players.getD k default := by
                            refine huntouched2 k ?_
                            rw [h1k]
                            exact hkd
                          rw [he3p, h2k, h1k]

/-- C10 witness world: a world where the attack 10: 1 → 2 succeeds. -/
def exW10 : GameEngine :=
  { state :=
      { territories :=
          [{ id := 1, owner := some 10, terrain := .Plains, building := none,
             troops := 0, neighbors := [2], position := (⟨0, 1⟩, ⟨0, 1⟩) },
           { id := 2, owner := some 11, terrain := .Plains, building := none,
             troops := 40, neighbors := [1], position := (⟨0, 1⟩, ⟨0, 1⟩) }],
        players :=
          [{ id := 10, name := "A", is_ai := false, ai_personality := none, color := "red",
             population := 1000, max_population := 10000, gold := 7, troop_ratio := ⟨1, 1⟩,
             attack_ratio := ⟨1, 1⟩, territories_controlled := 1, is_alive := true },
           { id := 11, name := "D", is_ai := false, ai_personality := none, color := "green",
             population := 500, max_population := 10000, gold := 9, troop_ratio := ⟨1, 1⟩,
             attack_ratio := ⟨1, 1⟩, territories_controlled := 1, is_alive := true }],
        tick := 5, game_speed := ⟨1, 1⟩, is_paused := false, game_time_seconds := 3 },
    tick_rate_ms := 100 }

/-- Outcome of the witness attack: 1000 committed against 40, conquest. -/
def exR10 : CombatResult :=
  { attacker_id := 10, defender_id := some 11, from_territory := 1, to_territory := 2,
    attacker_troops_committed := 1000, defender_troops := 40, attacker_losses := 12,
    defender_losses := 40, territory_conquered := true }

/-- C10 witness: the frame applied to a concrete successful attack — the
clock is untouched and the attacker's gold is untouched. -/
theorem execute_attack_frame_witness :
    (exW10.execute_attack 10 1 2).1.state.tick = exW10.state.tick ∧
    ((exW10.execute_attack 10 1 2).1.state.players.getD 0 default).gold
      = (exW10.state.players.getD 0 default).gold := by
  have h := execute_attack_frame exW10 (exW10.execute_attack 10 1 2).1 10 1 2 exR10 (by rfl)
  exact ⟨h.2.1, (h.2.2.2.2.2.2.2.1 0).2.2.2.2.2.2.1⟩

/-- The per-participant invariant: both ratios within [0, 1] and population
within the cap. -/
def aux_invP (p : Player) : Prop :=
  (⟨0, 1⟩ : Frac) ≤ p.troop_ratio ∧ p.troop_ratio ≤ ⟨1, 1⟩ ∧
  (⟨0, 1⟩ : Frac) ≤ p.attack_ratio ∧ p.attack_ratio ≤ ⟨1, 1⟩ ∧
  p.population ≤ p.max_population

/-- The world-level invariant of C9. -/
def RatioPopInv (e : GameEngine) : Prop :=
  ∀ p ∈ e.state.players, aux_invP p

/-- Any fraction is non-negative, and a clamp to [0, 1] lands in [0, 1]. -/
theorem aux_clamp01 (x : Frac) :
    (⟨0, 1⟩ : Frac) ≤ x.clamp ⟨0, 1⟩ ⟨1, 1⟩ ∧ x.clamp ⟨0, 1⟩ ⟨1, 1⟩ ≤ ⟨1, 1⟩ := by
  unfold Frac.clamp
  split_ifs with h1 h2
  · exact ⟨by show 0 * 1 ≤ 0 * 1; omega, by show 0 * 1 ≤ 1 * 1; omega⟩
  · exact ⟨by show 0 * 1 ≤ 1 * 1; omega, by show 1 * 1 ≤ 1 * 1; omega⟩
  · refine ⟨by show 0 * x.den ≤ x.num * 1; omega, ?_⟩
    show x.num * 1 ≤ 1 * x.den
    have h2' : ¬ (1 * x.den < x.num * 1) := h2
    omega

/-- An element fetched in bounds is a member. -/
theorem aux_getD_mem {α} [Inhabited α] {l : List α} {i : ℕ} (h : i < l.length) :
    l.getD i default ∈ l := by
  rw [List.getD_eq_getElem?_getD, List.getElem?_eq_getElem h]
  exact List.getElem_mem h

/-- The invariant only depends on the player list. -/
theorem aux_inv_players_congr {e e' : GameEngine}
    (h : e'.state.players = e.state.players) (hi : RatioPopInv e) : RatioPopInv e' := by
  intro p hp
  rw [h] at hp
  exact hi p hp

/-- The invariant is preserved by any player modification whose update
preserves the per-participant invariant. -/
theorem aux_inv_modify {e e' : GameEngine} {pid : ℕ} {f : Player → Player}
    (h : e.modify_player? pid f = some e')
    (hf : ∀ p, aux_invP p → aux_invP (f p)) (hi : RatioPopInv e) : RatioPopInv e' := by
  obtain ⟨i, hidx, hilt, hiid, hps, -⟩ := aux_modify_player?_some h
  intro p hp
  rw [hps] at hp
  rcases List.mem_or_eq_of_mem_set hp with hmem | heq
  · exact hi p hmem
  · rw [heq]
    exact hf _ (hi _ (aux_getD_mem hilt))

/-- The invariant is preserved by the resource step. -/
theorem aux_inv_urs_step (e : GameEngine) (pid : ℕ) (hi : RatioPopInv e) :
    RatioPopInv (e.update_resources_step pid) := by
  unfold GameEngine.update_resources_step
  split
  · exact hi
  · dsimp only
    split
    · next e1 he1 =>
      refine aux_inv_modify he1 ?_ hi
      intro p hp
      exact ⟨hp.1, hp.2.1, hp.2.2.1, hp.2.2.2.1, min_le_right _ _⟩
    · exact hi

/-- The invariant is preserved by the resource pass. -/
theorem aux_inv_update_resources (e : GameEngine) (hi : RatioPopInv e) :
    RatioPopInv e.update_resources := by
  unfold GameEngine.update_resources
  refine aux_foldl_preserve (P := RatioPopInv) ?_ hi
  intro b a _ hb
  exact aux_inv_urs_step b a hb

/-- The invariant is preserved by the bookkeeping pass. -/
theorem aux_inv_utc (e : GameEngine) (hi : RatioPopInv e) :
    RatioPopInv e.update_territory_counts := by
  intro q hq
  obtain ⟨i, hilt, hq⟩ := List.mem_iff_getElem.1 hq
  have hilt' : i < e.state.players.length := by
    rw [← (aux_utc_players e).1]
    exact hilt
  have hqd : e.update_territory_counts.state.players.getD i default = q := by
    rw [List.getD_eq_getElem?_getD, List.getElem?_eq_getElem hilt, hq]
    rfl
  have hrel := ((aux_utc_players e).2 i).1
  rw [hqd] at hrel
  obtain ⟨hid, hname, hisai, hai, hcolor, hpop, hmax, hgold, htr, har, hal⟩ := hrel
  have horig := hi _ (aux_getD_mem hilt')
  exact ⟨htr ▸ horig.1, htr ▸ horig.2.1, har ▸ horig.2.2.1, har ▸ horig.2.2.2.1,
    by rw [hpop, hmax]; exact horig.2.2.2.2⟩

/-- The invariant is preserved by attack resolution. -/
theorem aux_inv_attack (e : GameEngine) (a f t : ℕ) (hi : RatioPopInv e) :
    RatioPopInv (e.execute_attack a f t).1 := by
  unfold GameEngine.execute_attack
  split
  · exact hi
  · split
    · exact hi
    · split
      · exact hi
      · split
        · exact hi
        · split
          · exact hi
          · dsimp only
            split
            · exact hi
            · split
              · exact hi
              · split
                · exact hi
                · split
                  · exact hi
                  · next e1 he1 =>
                    have h1 : RatioPopInv e1 := by
                      refine aux_inv_modify he1 ?_ hi
                      intro p hp
                      exact ⟨hp.1, hp.2.1, hp.2.2.1, hp.2.2.2.1,
                        le_trans (Nat.sub_le _ _) hp.2.2.2.2⟩
                    split
                    · exact h1
                    · next e2 he2 =>
                      have h2 : RatioPopInv e2 := by
                        split at he2
                        · refine aux_inv_modify he2 ?_ h1
                          intro p hp
                          exact ⟨hp.1, hp.2.1, hp.2.2.1, hp.2.2.2.1,
                            le_trans (Nat.sub_le _ _) hp.2.2.2.2⟩
                        · have he12 := Option.some.inj he2
                          subst he12
                          exact h1
                      split
                      · exact h2
                      · next e3 he3 =>
                        obtain ⟨-, -, -, -, -, hps, -⟩ := aux_modify_territory?_some he3
                        exact aux_inv_players_congr hps h2

/-- The invariant is preserved by building. -/
theorem aux_inv_build (e : GameEngine) (pid tid : ℕ) (bt : BuildingType)
    (hi : RatioPopInv e) : RatioPopInv (e.build_structure pid tid bt).1 := by
  unfold GameEngine.build_structure
  split
  · exact hi
  · split
    · exact hi
    · split
      · exact hi
      · split
        · exact hi
        · dsimp only
          by_cases hbt : bt = BuildingType.City
          · simp only [if_pos hbt]
            split
            · exact hi
            · split
              · exact hi
              · next e1 he1 =>
                have h1 : RatioPopInv e1 := by
                  refine aux_inv_modify he1 ?_ hi
                  intro p hp
                  exact ⟨hp.1, hp.2.1, hp.2.2.1, hp.2.2.2.1,
                    le_trans hp.2.2.2.2 (Nat.le_add_right _ _)⟩
                split
                · exact h1
                · next e2 he2 =>
                  obtain ⟨-, -, -, -, -, hps, -⟩ := aux_modify_territory?_some he2
                  exact aux_inv_players_congr hps h1
          · simp only [if_neg hbt]
            split
            · exact hi
            · split
              · exact hi
              · next e1 he1 =>
                have h1 : RatioPopInv e1 := by
                  refine aux_inv_modify he1 ?_ hi
                  intro p hp
                  exact ⟨hp.1, hp.2.1, hp.2.2.1, hp.2.2.2.1, hp.2.2.2.2⟩
                split
                · exact h1
                · next e2 he2 =>
                  obtain ⟨-, -, -, -, -, hps, -⟩ := aux_modify_territory?_some he2
                  exact aux_inv_players_congr hps h1

/-- The invariant is preserved by the ratio setters. -/
theorem aux_inv_set_troop_ratio (e : GameEngine) (pid : ℕ) (r : Frac)
    (hi : RatioPopInv e) : RatioPopInv (e.set_troop_ratio pid r).1 := by
  unfold GameEngine.set_troop_ratio
  dsimp only
  split
  · next e1 he1 =>
    refine aux_inv_modify he1 ?_ hi
    intro p hp
    exact ⟨(aux_clamp01 r).1, (aux_clamp01 r).2, hp.2.2.1, hp.2.2.2.1, hp.2.2.2.2⟩
  · exact hi

/-- Same for the attack ratio. -/
theorem aux_inv_set_attack_ratio (e : GameEngine) (pid : ℕ) (r : Frac)
    (hi : RatioPopInv e) : RatioPopInv (e.set_attack_ratio pid r).1 := by
  unfold GameEngine.set_attack_ratio
  dsimp only
  split
  · next e1 he1 =>
    refine aux_inv_modify he1 ?_ hi
    intro p hp
    exact ⟨hp.1, hp.2.1, (aux_clamp01 r).1, (aux_clamp01 r).2, hp.2.2.2.2⟩
  · exact hi

/-- The invariant is preserved by a tick. -/
theorem aux_inv_tick (e : GameEngine) (hi : RatioPopInv e) : RatioPopInv e.tick := by
  unfold GameEngine.tick
  split
  · exact hi
  · dsimp only
    refine aux_inv_utc _ (aux_inv_update_resources _ ?_)
    exact aux_inv_players_congr rfl hi

/-- C9: for every participant and every sequence of Engine commands and
ticks, the ratio bounds `0 ≤ troop_ratio, attack_ratio ≤ 1` and the
population cap `population ≤ max_population` are preserved; and the ratio
setters store exactly `clamp(input, 0, 1)` for any input. -/
theorem invariants_preserved :
    (∀ (e : GameEngine) (cmds : List Command),
      RatioPopInv e → RatioPopInv (e.run cmds)) ∧
    (∀ (e : GameEngine) (pid : ℕ) (r : Frac) (pl : Player),
      e.get_player pid = .ok pl →
      (e.set_troop_ratio pid r).1.get_player pid
        = .ok { pl with troop_ratio := r.clamp ⟨0, 1⟩ ⟨1, 1⟩ } ∧
      (e.set_attack_ratio pid r).1.get_player pid
        = .ok { pl with attack_ratio := r.clamp ⟨0, 1⟩ ⟨1, 1⟩ }) := by
  constructor
  · intro e cmds
    induction cmds generalizing e with
    | nil => exact fun hi => hi
    | cons c cs ih =>
      intro hi
      refine ih _ ?_
      cases c with
      | attack a f t => exact aux_inv_attack e a f t hi
      | buildStructure p t b => exact aux_inv_build e p t b hi
      | setTroopRatio p r => exact aux_inv_set_troop_ratio e p r hi
      | setAttackRatio p r => exact aux_inv_set_attack_ratio e p r hi
      | pauseGame => exact aux_inv_players_congr rfl hi
      | resumeGame => exact aux_inv_players_congr rfl hi
      | setGameSpeed s => exact aux_inv_players_congr rfl hi
      | tick => exact aux_inv_tick e hi
  · intro e pid r pl hp
    obtain ⟨ip, hip, hiplt, hpl, hplid⟩ := aux_get_player_ok hp
    constructor
    · unfold GameEngine.set_troop_ratio
      dsimp only
      have hms : (e.modify_player? pid (fun p =>
          { p with troop_ratio := r.clamp ⟨0, 1⟩ ⟨1, 1⟩ })).isSome = true := by
        rw [aux_modify_player?_isSome, hip]
        rfl
      obtain ⟨e1, he1⟩ := Option.isSome_iff_exists.1 hms
      rw [he1]
      obtain ⟨i1, hi1, -, -, he1p, -⟩ := aux_modify_player?_some he1
      rw [hip] at hi1
      have hii := Option.some.inj hi1
      subst hii
      have := aux_get_player_set_self he1p hip rfl
      rw [this, ← hpl]
    · unfold GameEngine.set_attack_ratio
      dsimp only
      have hms : (e.modify_player? pid (fun p =>
          { p with attack_ratio := r.clamp ⟨0, 1⟩ ⟨1, 1⟩ })).isSome = true := by
        rw [aux_modify_player?_isSome, hip]
        rfl
      obtain ⟨e1, he1⟩ := Option.isSome_iff_exists.1 hms
      rw [he1]
      obtain ⟨i1, hi1, -, -, he1p, -⟩ := aux_modify_player?_some he1
      rw [hip] at hi1
      have hii := Option.some.inj hi1
      subst hii
      have := aux_get_player_set_self he1p hip rfl
      rw [this, ← hpl]

/-- Participant of the C9 witness world. -/
def exP9 : Player :=
  { id := 10, name := "P", is_ai := false, ai_personality := none, color := "red",
    population := 900, max_population := 10000, gold := 50, troop_ratio := ⟨1, 2⟩,
    attack_ratio := ⟨1, 4⟩, territories_controlled := 1, is_alive := true }

/-- C9 witness world. -/
def exW9 : GameEngine :=
  { state :=
      { territories := [{ id := 1, owner := some 10, terrain := .Forests, building := none,
                          troops := 5, neighbors := [1], position := (⟨0, 1⟩, ⟨0, 1⟩) }],
        players := [exP9],
        tick := 0, game_speed := ⟨1, 1⟩, is_paused := false, game_time_seconds := 0 },
    tick_rate_ms := 100 }

/-- C9 witness: the invariant survives a setter followed by a tick, and a
ratio input of 7/2 is stored as the clamp 1. -/
theorem invariants_preserved_witness :
    RatioPopInv (exW9.run [Command.setTroopRatio 10 ⟨7, 2⟩, Command.tick]) ∧
    (exW9.set_troop_ratio 10 ⟨7, 2⟩).1.get_player 10
      = .ok { exP9 with troop_ratio := ⟨1, 1⟩ } := by
  refine ⟨invariants_preserved.1 exW9 _ ?_, ?_⟩
  · intro p hp
    unfold aux_invP
    have hp' : p = exP9 := by
      rcases List.mem_singleton.1 hp with rfl
      rfl
    subst hp'
    refine ⟨by decide, by decide, by decide, by decide, by decide⟩
  · have h2 := (invariants_preserved.2 exW9 10 ⟨7, 2⟩ exP9 (by rfl)).1
    rw [h2]
    rfl
